import Mathlib

/-!
Verification of the takopi codex runner core against its specification.

The development shallowly embeds the Python sources:
  * `src/takopi/runners/codex.py` — event translation, the `_run` stdout loop,
    `_iter_text_lines`, the per-session lock discipline of `CodexRunner.run`;
  * `codex_telegram_bridge/.../exec_render.py` — the progress renderer.

Python values flowing through untyped JSON dicts are embedded as `PyVal`.
Machine integers are `Int`/`Nat` (Python integers are unbounded, so no
wrap-around modelling is needed).  Fallible paths (a `raise` escaping the
async generator) are modelled by an explicit outcome value.
-/

/-- A Python value as it appears in the decoded JSON protocol: `None`,
booleans, (unbounded) integers, strings, lists, and string-keyed dicts. -/
inductive PyVal where
  | none
  | bool (b : Bool)
  | int (n : Int)
  | str (s : String)
  | list (xs : List PyVal)
  | dict (fields : List (String × PyVal))

/-- Python truthiness (`bool(v)`): `None`, `False`, `0`, `""`, `[]`, `{}` are
falsy, everything else truthy. -/
def PyVal.truthy : PyVal → Bool
  | .none => false
  | .bool b => b
  | .int n => n != 0
  | .str s => s != ""
  | .list xs => !xs.isEmpty
  | .dict fs => !fs.isEmpty

/-- `d.get(k)`: dict lookup returning `None` when the key is absent.  Only a
dict has a `.get` attribute in CPython — calling it on any other value raises
`AttributeError`.  This total function returns `None` on non-dicts; every
embedded call site whose receiver is not guaranteed to be a dict therefore
guards with `isDict` first and surfaces the `AttributeError` explicitly
(`stepLine`, `translateItemEvent`), so the non-dict fallback of this function
is consulted only where the source itself is crash-free. -/
def PyVal.get (v : PyVal) (k : String) : PyVal :=
  match v with
  | .dict fs =>
    match fs.find? (fun f => f.1 == k) with
    | some f => f.2
    | Option.none => .none
  | _ => .none

/-- `v is None`. -/
def PyVal.isNone : PyVal → Bool
  | .none => true
  | _ => false

/-- `isinstance(v, dict)` — equivalently, whether `v.get(...)` is legal. -/
def PyVal.isDict : PyVal → Bool
  | .dict _ => true
  | _ => false

/-- `isinstance(v, str)`. -/
def PyVal.isStr : PyVal → Bool
  | .str _ => true
  | _ => false

/-- `k in d` for a dict. -/
def PyVal.hasKey (v : PyVal) (k : String) : Bool :=
  match v with
  | .dict fs => fs.any (fun f => f.1 == k)
  | _ => false

/-- Python `a or b`. -/
def pyOr (a b : PyVal) : PyVal := if a.truthy then a else b

/-- Python `v == s` for a string literal `s`: only a `str` can compare equal. -/
def PyVal.eqStr (v : PyVal) (s : String) : Bool :=
  match v with
  | .str t => t == s
  | _ => false

mutual
/-- Python `repr(v)` (string escaping inside nested `repr` is simplified;
no claim inspects nested rendered payloads). -/
def pyRepr : PyVal → String
  | .none => "None"
  | .bool true => "True"
  | .bool false => "False"
  | .int n => toString n
  | .str s => "\x27" ++ s ++ "\x27"
  | .list xs => "[" ++ pyReprList xs ++ "]"
  | .dict fs => "\x7b" ++ pyReprFields fs ++ "\x7d"

def pyReprList : List PyVal → String
  | [] => ""
  | [x] => pyRepr x
  | x :: y :: xs => pyRepr x ++ ", " ++ pyReprList (y :: xs)

def pyReprFields : List (String × PyVal) → String
  | [] => ""
  | [f] => "\x27" ++ f.1 ++ "\x27: " ++ pyRepr f.2
  | f :: g :: fs => "\x27" ++ f.1 ++ "\x27: " ++ pyRepr f.2 ++ ", " ++ pyReprFields (g :: fs)
end

/-- Python `str(v)`. -/
def pyStr : PyVal → String
  | .str s => s
  | v => pyRepr v

/-- The elements of a Python list value (iteration); non-lists iterate
nowhere in the modelled fragments. -/
def PyVal.asList : PyVal → List PyVal
  | .list xs => xs
  | _ => []

/-- `sub in s` for strings: substring containment. -/
def strIsInfixOf (sub s : String) : Bool :=
  listIsInfixOf sub.data s.data
where
  listIsInfixOf (sub : List Char) : List Char → Bool
    | [] => sub.isEmpty
    | c :: rest => sub.isPrefixOf (c :: rest) || listIsInfixOf sub rest

/-!
## Line decoder (`_iter_text_lines`, codex.py lines 409–426)

The byte stream is embedded as the list of already-decoded text chunks the
`TextReceiveStream` delivers (decode errors are replaced, never fatal, so
chunks are plain text); text is embedded as `List Char`.  The generator
accumulates a buffer, yields every newline-terminated piece as soon as the
newline is present, and flushes a non-empty remainder at end of stream.
-/

/-- The inner `while` of `_iter_text_lines`: repeatedly split the buffer at
the first `'\n'` (inclusive), returning the complete lines and the
newline-free remainder. -/
def extractLines (buf : List Char) : List (List Char) × List Char :=
  match h : buf.span (fun c => c != '\n') with
  | (pre, []) => ([], pre)
  | (pre, c :: rest) =>
    let r := extractLines rest
    ((pre ++ [c]) :: r.1, r.2)
termination_by buf.length
decreasing_by
  simp only [List.span_eq_take_drop, Prod.mk.injEq] at h
  have hlen : buf.length = pre.length + (c :: rest).length := by
    conv_lhs => rw [← List.takeWhile_append_dropWhile (p := fun c => c != '\n') (l := buf)]
    rw [List.length_append, h.1, h.2]
  simp only [List.length_cons] at hlen
  omega

/-- The chunk loop of `_iter_text_lines`: feed each received chunk into the
buffer, yield complete lines, and at end of stream flush the remainder iff
non-empty. -/
def iterLinesGo : List (List Char) → List Char → List (List Char)
  | [], buffer => if buffer.isEmpty then [] else [buffer]
  | ch :: rest, buffer =>
    let r := extractLines (buffer ++ ch)
    r.1 ++ iterLinesGo rest r.2

/-- `_iter_text_lines` over a whole stream of decoded chunks. -/
def iterTextLines (chunks : List (List Char)) : List (List Char) :=
  iterLinesGo chunks []

theorem extractLines_spec (buf : List Char) :
    (extractLines buf).1.flatten ++ (extractLines buf).2 = buf ∧
    (∀ l ∈ (extractLines buf).1, l ≠ [] ∧ l.getLast? = some '\n') ∧
    '\n' ∉ (extractLines buf).2 := by
  induction buf using extractLines.induct with
  | case1 buf pre h =>
    have hs := List.takeWhile_append_dropWhile (p := fun c => c != '\n') (l := buf)
    rw [List.span_eq_take_drop, Prod.mk.injEq] at h
    rw [extractLines]
    rw [List.span_eq_take_drop, h.1, h.2]
    refine ⟨by simpa [h.1, h.2] using hs, by simp, ?_⟩
    intro hmem
    rw [← h.1] at hmem
    have := List.mem_takeWhile_imp hmem
    simp at this
  | case2 buf pre c rest h ih =>
    have hs := List.takeWhile_append_dropWhile (p := fun c => c != '\n') (l := buf)
    have hc : c = '\n' := by
      rw [List.span_eq_take_drop, Prod.mk.injEq] at h
      have h0 : 0 < (List.dropWhile (fun c => c != '\n') buf).length := by
        rw [h.2]; simp
      have := List.dropWhile_get_zero_not (fun c => c != '\n') buf h0
      rw [List.get_of_eq h.2] at this
      simpa using this
    rw [extractLines]
    rw [List.span_eq_take_drop] at h ⊢
    rw [h]
    dsimp only
    rw [Prod.mk.injEq] at h
    obtain ⟨hjoin, hlines, hrest⟩ := ih
    refine ⟨?_, ?_, hrest⟩
    · simp only [List.flatten_cons, List.append_assoc, hjoin]
      rw [← hs, h.1, h.2]
      simp
    · intro l hl
      rcases List.mem_cons.mp hl with rfl | hl
      · exact ⟨by simp, by rw [hc]; simp⟩
      · exact hlines l hl

theorem iterLinesGo_spec (chunks : List (List Char)) : ∀ buffer, '\n' ∉ buffer →
    (iterLinesGo chunks buffer).flatten = buffer ++ chunks.flatten ∧
    (∀ l ∈ iterLinesGo chunks buffer, l ≠ []) ∧
    (∀ l ∈ (iterLinesGo chunks buffer).dropLast, l.getLast? = some '\n') ∧
    (∀ l ∈ iterLinesGo chunks buffer, l.getLast? = some '\n' ∨ '\n' ∉ l) := by
  induction chunks with
  | nil =>
    intro buffer hb
    by_cases hbe : buffer.isEmpty
    · simp [iterLinesGo, hbe, List.isEmpty_iff.mp hbe]
    · refine ⟨by simp [iterLinesGo, hbe], ?_, ?_, ?_⟩
      · intro l hl
        simp only [iterLinesGo, if_neg hbe, List.mem_singleton] at hl
        subst hl
        exact fun hnil => hbe (by simp [hnil])
      · intro l hl
        have hbne : buffer ≠ [] := fun hnil => hbe (by simp [hnil])
        simp [iterLinesGo, if_neg hbe, hbne] at hl
      · intro l hl
        simp only [iterLinesGo, if_neg hbe, List.mem_singleton] at hl
        subst hl
        exact Or.inr hb
  | cons ch rest ih =>
    intro buffer hb
    obtain ⟨ejoin, elines, erest⟩ := extractLines_spec (buffer ++ ch)
    obtain ⟨gjoin, gne, gdrop, gall⟩ := ih (extractLines (buffer ++ ch)).2 erest
    have hio : iterLinesGo (ch :: rest) buffer =
        (extractLines (buffer ++ ch)).1 ++ iterLinesGo rest (extractLines (buffer ++ ch)).2 := rfl
    refine ⟨?_, ?_, ?_, ?_⟩
    · rw [hio, List.flatten_append, gjoin, ← List.append_assoc, ejoin]
      simp
    · intro l hl
      rw [hio, List.mem_append] at hl
      rcases hl with hl | hl
      · exact (elines l hl).1
      · exact gne l hl
    · intro l hl
      rw [hio] at hl
      by_cases hgo : iterLinesGo rest (extractLines (buffer ++ ch)).2 = []
      · rw [hgo, List.append_nil] at hl
        exact (elines l (List.mem_of_mem_dropLast hl)).2
      · rw [List.dropLast_append_of_ne_nil _ hgo, List.mem_append] at hl
        rcases hl with hl | hl
        · exact (elines l hl).2
        · exact gdrop l hl
    · intro l hl
      rw [hio, List.mem_append] at hl
      rcases hl with hl | hl
      · exact Or.inl (elines l hl).2
      · exact gall l hl

/-- C6: for every byte stream, `_iter_text_lines` yields fragments in which
every fragment but possibly the final one ends with a newline; every yielded
fragment is non-empty (the end-of-stream remainder is flushed iff non-empty:
nothing is dropped, as the concatenation equality shows, and nothing empty is
yielded); end of stream terminates the sequence (the function is total). -/
theorem iterTextLines_line_discipline (chunks : List (List Char)) :
    (∀ l ∈ iterTextLines chunks, l ≠ []) ∧
    (∀ l ∈ (iterTextLines chunks).dropLast, l.getLast? = some '\n') ∧
    (∀ l ∈ iterTextLines chunks, l.getLast? = some '\n' ∨ '\n' ∉ l) ∧
    (iterTextLines chunks).flatten = chunks.flatten := by
  obtain ⟨hj, hn, hd, ha⟩ := iterLinesGo_spec chunks [] (by simp)
  exact ⟨hn, hd, ha, by simpa using hj⟩

/-!
## Progress renderer (`exec_render.py`)

Renderer events are the protocol dicts, embedded as `PyVal`; `item["k"]`
indexing is embedded via `PyVal.get` (the sources only index keys that the
protocol guarantees present).  `elapsed_s` is embedded as whole seconds
(`Int`), matching the immediate `int(elapsed_s)` conversion in
`_format_elapsed`.  The `deque(maxlen=…)` rolling history is a list with
explicit capacity `recentCap` (the renderer constructs it from
`max_actions`, default 5).
-/

def strIntercalate (sep : String) : List String → String
  | [] => ""
  | [x] => x
  | x :: y :: xs => x ++ sep ++ strIntercalate sep (y :: xs)

/-- `str.split()` with no argument: split on whitespace runs, dropping empty
pieces (structural, character-level). -/
def splitwsAux : List Char → List Char → List (List Char)
  | [], cur => if cur.isEmpty then [] else [cur.reverse]
  | c :: rest, cur =>
    if c.isWhitespace then
      if cur.isEmpty then splitwsAux rest [] else cur.reverse :: splitwsAux rest []
    else splitwsAux rest (c :: cur)

/-- Character-level `s[:n]` (Python slices strings by code points). -/
def strTake (s : String) (n : Nat) : String := (s.data.take n).asString

/-- `str.strip()`: drop whitespace from both ends. -/
def strTrim (s : String) : String :=
  ((s.data.dropWhile Char.isWhitespace).reverse.dropWhile Char.isWhitespace).reverse.asString

namespace ExecRender

def ELLIPSIS : String := "…"
def STATUS_RUNNING : String := "▸"
def STATUS_DONE : String := "✓"
def HEADER_SEP : String := " · "
def HARD_BREAK : String := "  \n"
def MAX_CMD_LEN : Nat := 40
def MAX_REASON_LEN : Nat := 80
def MAX_QUERY_LEN : Nat := 60
def MAX_PATH_LEN : Nat := 40
def MAX_PROGRESS_CHARS : Nat := 300

def oneLine (text : String) : String :=
  strIntercalate " " ((splitwsAux text.data []).map List.asString)

def truncate (text : String) (maxLen : Nat) : String :=
  let text := oneLine text
  if text.length ≤ maxLen then text
  else if maxLen ≤ ELLIPSIS.length then strTake text maxLen
  else strTake text (maxLen - ELLIPSIS.length) ++ ELLIPSIS

def inlineCode (text : String) : String := "`" ++ text ++ "`"

def pad2 (n : Nat) : String := if n < 10 then "0" ++ toString n else toString n

def formatElapsed (elapsedS : Int) : String :=
  let total := (max 0 elapsedS).toNat
  let minutes := total / 60
  let seconds := total % 60
  let hours := minutes / 60
  let minutes := minutes % 60
  if hours ≠ 0 then toString hours ++ "h " ++ pad2 minutes ++ "m"
  else if minutes ≠ 0 then toString minutes ++ "m " ++ pad2 seconds ++ "s"
  else toString seconds ++ "s"

def formatHeader (elapsedS : Int) (turn : Option Int) (label : String) : String :=
  let elapsed := formatElapsed elapsedS
  match turn with
  | some t => label ++ HEADER_SEP ++ elapsed ++ HEADER_SEP ++ "turn " ++ toString t
  | Option.none => label ++ HEADER_SEP ++ elapsed

def formatReasoning (text : String) : String :=
  if text == "" then "" else "_" ++ truncate text MAX_REASON_LEN ++ "_"

def formatCommand (command : String) : String :=
  let command := truncate command MAX_CMD_LEN
  inlineCode (if command == "" then "(empty)" else command)

def formatQuery (query : String) : String := truncate query MAX_QUERY_LEN

def formatPaths (paths : List String) : String :=
  strIntercalate ", " (paths.map (fun path => inlineCode (truncate path MAX_PATH_LEN)))

def formatFileChange (changes : List PyVal) : String :=
  let paths := changes.filterMap (fun change =>
    let p := change.get "path"
    if p.truthy then some (pyStr p) else Option.none)
  if paths.isEmpty then
    (if changes.length == 0 then "updated files"
     else "updated " ++ toString changes.length ++ " files")
  else if paths.length ≤ 3 then "updated " ++ formatPaths paths
  else "updated " ++ toString paths.length ++ " files"

def formatToolCall (server tool : PyVal) : String :=
  let name := strIntercalate "." (([server, tool].filter PyVal.truthy).map pyStr)
  if name == "" then "tool" else name

def isCommandLogLine (line : String) : Bool :=
  strIsInfixOf (STATUS_DONE ++ " ran:") line

def digitsToInt (ds : List Char) : Int :=
  ds.foldl (fun acc c => acc * 10 + ((c.toNat - '0'.toNat : Nat) : Int)) 0

def firstDigitRun : List Char → Option (List Char)
  | [] => Option.none
  | c :: rest =>
    if c.isDigit then some (c :: rest.takeWhile Char.isDigit) else firstDigitRun rest

def extractNumericId (itemId : PyVal) (fallback : Option Int) : Option Int :=
  match itemId with
  | .int n => some n
  | .str s =>
    match firstDigitRun s.data with
    | some ds => some (digitsToInt ds)
    | Option.none => fallback
  | _ => fallback

def withId (itemId : Option Int) (line : String) : String :=
  match itemId with
  | some n => "[" ++ toString n ++ "] " ++ line
  | Option.none => "[?] " ++ line

def formatItemActionLine (etype : String) (itemId : Option Int) (item : PyVal) :
    Option String :=
  let itype := item.get "type"
  if itype.eqStr "command_execution" then
    let command := formatCommand (pyStr (item.get "command"))
    if etype == "item.started" then
      some (withId itemId (STATUS_RUNNING ++ " running: " ++ command))
    else if etype == "item.completed" then
      let exitCode := item.get "exit_code"
      let exitPart :=
        match exitCode with
        | .none => ""
        | ec => " (exit " ++ pyStr ec ++ ")"
      some (withId itemId (STATUS_DONE ++ " ran: " ++ command ++ exitPart))
    else Option.none
  else if itype.eqStr "mcp_tool_call" then
    let name := formatToolCall (item.get "server") (item.get "tool")
    if etype == "item.started" then some (withId itemId (STATUS_RUNNING ++ " tool: " ++ name))
    else if etype == "item.completed" then some (withId itemId (STATUS_DONE ++ " tool: " ++ name))
    else Option.none
  else Option.none

def formatItemCompletedLine (itemId : Option Int) (item : PyVal) : Option String :=
  let itype := item.get "type"
  if itype.eqStr "web_search" then
    some (withId itemId (STATUS_DONE ++ " searched: " ++ formatQuery (pyStr (item.get "query"))))
  else if itype.eqStr "file_change" then
    some (withId itemId (STATUS_DONE ++ " " ++ formatFileChange (item.get "changes").asList))
  else if itype.eqStr "error" then
    some (withId itemId (STATUS_DONE ++ " warning: " ++ truncate (pyStr (item.get "message")) 120))
  else Option.none

structure ExecRenderState where
  recentActions : List String := []
  recentCap : Nat := 5
  currentAction : Option String := Option.none
  currentActionId : Option Int := Option.none
  pendingReasoning : Option String := Option.none
  currentReasoning : Option String := Option.none
  lastTurn : Option Int := Option.none

def dequeAppend (cap : Nat) (xs : List String) (x : String) : List String :=
  let ys := xs ++ [x]
  ys.drop (ys.length - cap)

def recordItem (st : ExecRenderState) (item : PyVal) : ExecRenderState :=
  match extractNumericId (item.get "id") Option.none with
  | some n => { st with lastTurn := some n }
  | Option.none => st

def optStrTruthy : Option String → Bool
  | some s => s != ""
  | Option.none => false

def optIntTruthy : Option Int → Bool
  | some n => n != 0
  | Option.none => false

def setCurrentAction (st : ExecRenderState) (itemId : Option Int) (line : String) :
    ExecRenderState × Bool :=
  if st.currentAction != some line || st.currentActionId != itemId then
    let st := { st with currentAction := some line, currentActionId := itemId }
    let st :=
      if optStrTruthy st.pendingReasoning then
        { st with currentReasoning := st.pendingReasoning, pendingReasoning := Option.none }
      else st
    (st, true)
  else (st, false)

def completeAction (st : ExecRenderState) (itemId : Option Int) (line : String) :
    ExecRenderState × Bool :=
  let r1 :=
    match st.currentReasoning with
    | some r =>
      if r != "" then
        if st.recentActions.isEmpty || st.recentActions.getLast? != some r then
          ({ st with recentActions := dequeAppend st.recentCap st.recentActions r }, true)
        else (st, false)
      else (st, false)
    | Option.none => (st, false)
  let r2 :=
    if line != "" then
      ({ r1.1 with recentActions := dequeAppend r1.1.recentCap r1.1.recentActions line }, true)
    else r1
  let r3 :=
    if optIntTruthy itemId && r2.1.currentActionId == itemId then
      ({ r2.1 with currentAction := Option.none, currentActionId := Option.none, currentReasoning := Option.none }, true)
    else r2
  if !optIntTruthy itemId && r3.1.currentActionId == Option.none then
    ({ r3.1 with currentReasoning := Option.none }, r3.2)
  else r3

def noteEvent (st : ExecRenderState) (event : PyVal) : ExecRenderState × Bool :=
  let etype := event.get "type"
  if etype.eqStr "thread.started" || etype.eqStr "turn.started" then (st, true)
  else
    match etype with
    | .str s =>
      if s == "item.started" || s == "item.updated" || s == "item.completed" then
        let item := event.get "item"
        let st := recordItem st item
        let itype := item.get "type"
        let itemId := extractNumericId (item.get "id") st.lastTurn
        if itype.eqStr "reasoning" then
          let reasoning := formatReasoning (pyStr (item.get "text"))
          if reasoning != "" then
            let reasoningLine := withId itemId reasoning
            if optStrTruthy st.currentAction && !optStrTruthy st.currentReasoning then
              ({ st with currentReasoning := some reasoningLine }, true)
            else ({ st with pendingReasoning := some reasoningLine }, false)
          else (st, false)
        else
          match formatItemActionLine s itemId item with
          | some actionLine =>
            if s == "item.started" then setCurrentAction st itemId actionLine
            else if s == "item.completed" then completeAction st itemId actionLine
            else (st, false)
          | Option.none =>
            if s == "item.completed" then
              match formatItemCompletedLine itemId item with
              | some completedLine => completeAction st itemId completedLine
              | Option.none => (st, false)
            else (st, false)
      else (st, false)
    | _ => (st, false)

def progressLines (st : ExecRenderState) : List String :=
  let lines := st.recentActions
  let lines :=
    if optStrTruthy st.currentReasoning && optStrTruthy st.currentAction then
      lines ++ [st.currentReasoning.getD ""]
    else lines
  if optStrTruthy st.currentAction then lines ++ [st.currentAction.getD ""] else lines

def assemble (header : String) (lines : List String) : String :=
  if lines.isEmpty then header else header ++ "\n\n" ++ strIntercalate HARD_BREAK lines

def renderProgress (maxChars : Nat) (st : ExecRenderState) (elapsedS : Int) : String :=
  let header := formatHeader elapsedS st.lastTurn "working"
  let message := assemble header (progressLines st)
  if message.length ≤ maxChars then message else header

def renderFinal (st : ExecRenderState) (elapsedS : Int) (answer : String) (status : String) :
    String :=
  let header := formatHeader elapsedS st.lastTurn status
  let lines := st.recentActions
  let lines :=
    if status == "done" then lines.filter (fun line => !isCommandLogLine line) else lines
  let body := assemble header lines
  let answer := strTrim answer
  if answer != "" then body ++ "\n\n" ++ answer else body

end ExecRender

namespace ExecRender

/-- A 300-digit item id: `_record_item` stores its numeric value in
`last_turn`, making the rendered header itself longer than the budget. -/
def c7BigId : String := "111111111111111111111111111111111111111111111111111111111111111111111111111111111111111111111111111111111111111111111111111111111111111111111111111111111111111111111111111111111111111111111111111111111111111111111111111111111111111111111111111111111111111111111111111111111111111111111111111111111111"

def c7Event : PyVal :=
  .dict [("type", .str "item.started"),
         ("item", .dict [("id", .str c7BigId), ("type", .str "reasoning"), ("text", .str "")])]

def c7State : ExecRenderState := (noteEvent ({} : ExecRenderState) c7Event).1

set_option maxRecDepth 100000 in
/-- C7 counterexample: a reachable renderer state (one `note_event` call whose
item id holds 300 digits) on which `render_progress` returns a string longer
than the 300-character budget — the degraded header itself exceeds it. -/
theorem renderProgress_budget_counterexample :
    (renderProgress MAX_PROGRESS_CHARS c7State 0).length > MAX_PROGRESS_CHARS := by decide

/-- C7 (amended): `render_progress` returns the header alone whenever the full
composition would exceed the budget, and its result fits the budget provided
the header itself does. -/
theorem renderProgress_budget_amended (maxChars : Nat) (st : ExecRenderState) (elapsedS : Int)
    (hheader : (formatHeader elapsedS st.lastTurn "working").length ≤ maxChars) :
    (renderProgress maxChars st elapsedS).length ≤ maxChars ∧
    ((assemble (formatHeader elapsedS st.lastTurn "working") (progressLines st)).length > maxChars →
      renderProgress maxChars st elapsedS = formatHeader elapsedS st.lastTurn "working") := by
  unfold renderProgress
  dsimp only
  constructor
  · split
    · assumption
    · exact hheader
  · intro hover
    rw [if_neg (by omega)]

/-- Witness for C7 (amended) at the empty renderer state. -/
theorem renderProgress_budget_amended_witness :
    (formatHeader 0 (Option.none : Option Int) "working").length ≤ 300 ∧
    ((renderProgress 300 ({} : ExecRenderState) 0).length ≤ 300 ∧
      ((assemble (formatHeader 0 (Option.none : Option Int) "working")
          (progressLines ({} : ExecRenderState))).length > 300 →
        renderProgress 300 ({} : ExecRenderState) 0 =
          formatHeader 0 (Option.none : Option Int) "working")) :=
  ⟨by decide, renderProgress_budget_amended 300 ({} : ExecRenderState) 0 (by decide)⟩

/-- Spec-side reference (C8), written from the claim wording: the final
render of a successful run is the `done` header, then — after a blank line,
hard-break-joined, omitted when empty — the rolling history with every line
containing the `"✓ ran:"` marker removed, then the stripped answer after one
more blank line whenever it is non-empty. -/
def specFinalDone (st : ExecRenderState) (elapsedS : Int) (answer : String) : String :=
  let header := formatHeader elapsedS st.lastTurn "done"
  let kept := st.recentActions.filter (fun line => !isCommandLogLine line)
  let body :=
    if kept.isEmpty then header else header ++ "\n\n" ++ strIntercalate HARD_BREAK kept
  if strTrim answer == "" then body else body ++ "\n\n" ++ strTrim answer

/-- C8: for every renderer state, elapsed time and answer, `render_final`
with status `"done"` equals the claim-side reference `specFinalDone` — the
history lines containing the `"✓ ran:"` marker are excluded and the stripped
answer is appended after a blank line whenever it is non-empty; filtering
those lines away beforehand is a no-op on the result; on the spec example —
history `["✓ ran: `ls`"]`, answer `"done"` — the final render is exactly the
header followed by `"\n\ndone"`; and on a history with a surviving line the
stripped answer is appended after the kept history. -/
theorem renderFinal_done_drops_ran_lines :
    (∀ (st : ExecRenderState) (elapsedS : Int) (answer : String),
      renderFinal st elapsedS answer "done" =
        renderFinal
          { st with recentActions := st.recentActions.filter (fun l => !isCommandLogLine l) }
          elapsedS answer "done") ∧
    (∀ (st : ExecRenderState) (elapsedS : Int) (answer : String),
      renderFinal st elapsedS answer "done" = specFinalDone st elapsedS answer) ∧
    renderFinal { recentActions := ["✓ ran: `ls`"] } 0 "done" "done" =
      formatHeader 0 (Option.none : Option Int) "done" ++ "\n\ndone" ∧
    renderFinal { recentActions := ["✓ ran: `ls`", "✓ tool: db.query"] } 0 " fin " "done" =
      formatHeader 0 (Option.none : Option Int) "done" ++ "\n\n✓ tool: db.query" ++
        "\n\nfin" := by
  refine ⟨?_, ?_, by decide, by decide⟩
  · intro st e a
    unfold renderFinal
    simp [List.filter_filter]
  · intro st e a
    by_cases hb : strTrim a = ""
    · simp [renderFinal, specFinalDone, assemble, hb]
    · simp [renderFinal, specFinalDone, assemble, hb]

/-- C9 (amended): the displayed ordinal is a deterministic function of the
item id alone whenever the id is an integer or contains a digit sequence;
the renderer-state fallback is only consulted for ids without digits. -/
theorem extractNumericId_id_determined (itemId : PyVal)
    (h : (extractNumericId itemId Option.none).isSome = true) :
    ∀ f g : Option Int, extractNumericId itemId f = extractNumericId itemId g := by
  intro f g
  cases itemId with
  | str s =>
    unfold extractNumericId at h ⊢
    dsimp only at h ⊢
    cases hr : firstDigitRun s.data with
    | some ds => simp [hr]
    | none => simp [hr] at h
  | int n => simp [extractNumericId]
  | none => simp [extractNumericId, Option.isSome] at h
  | bool b => simp [extractNumericId, Option.isSome] at h
  | list xs => simp [extractNumericId, Option.isSome] at h
  | dict fs => simp [extractNumericId, Option.isSome] at h

/-- Witness for C9 (amended) on a digit-bearing id. -/
theorem extractNumericId_id_determined_witness :
    (extractNumericId (.str "item_7") Option.none).isSome = true ∧
    extractNumericId (.str "item_7") (some 1) = extractNumericId (.str "item_7") (some 2) :=
  ⟨by decide, extractNumericId_id_determined (.str "item_7") (by decide) (some 1) (some 2)⟩

def c9CmdEvent (id : String) : PyVal :=
  .dict [("type", .str "item.started"),
         ("item", .dict [("id", .str id), ("type", .str "command_execution"),
                         ("command", .str "x")])]

def c9State1 : ExecRenderState :=
  (noteEvent (noteEvent ({} : ExecRenderState) (c9CmdEvent "item_7")).1 (c9CmdEvent "abc")).1

def c9State2 : ExecRenderState :=
  (noteEvent (noteEvent ({} : ExecRenderState) (c9CmdEvent "item_8")).1 (c9CmdEvent "abc")).1

/-- C9 counterexample: the digitless id `"abc"` is displayed with ordinal 7
after one history, with ordinal 8 after another — the ordinal depends on the
renderer state (`last_turn`), not on the id alone. -/
theorem actionOrdinal_state_dependent_counterexample :
    c9State1.currentAction = some "[7] ▸ running: `x`" ∧
    c9State2.currentAction = some "[8] ▸ running: `x`" := by decide

end ExecRender

/-!
## Normalized event model

`src/takopi/model.py` is not among the provided sources; the event
dataclasses it defines are modelled from the spec (§3 DATA MODEL).  The
`ActionKind`/`ActionPhase`/`ActionLevel` enums are the literal strings the
codex runner source puts into them.
-/

namespace Takopi

/-- Modelled from the spec: `ResumeToken` from `takopi.model` (not under
`src/`): `{engine: identifier, value: string}`; two tokens are equal iff both
fields are equal; immutable once created. -/
structure ResumeToken where
  engine : String
  value : String
deriving DecidableEq

/-- Modelled from the spec: `Action` from `takopi.model`: one unit of agent
activity; `kind` ranges over the literal strings `command`, `tool`,
`web_search`, `file_change`, `note`, `turn`, `warning`. -/
structure Action where
  id : String
  kind : String
  title : String
  detail : PyVal

/-- Modelled from the spec: `ActionEvent` from `takopi.model`; `phase` ranges
over `started`, `updated`, `completed` and `level` over `info`, `warning`. -/
structure ActionEvent where
  engine : String
  action : Action
  phase : String
  ok : Option Bool
  message : Option String
  level : Option String

/-- Modelled from the spec: `StartedEvent` from `takopi.model`: emitted at
most once per run, when the session identity becomes known. -/
structure StartedEvent where
  engine : String
  resume : ResumeToken
  title : String

/-- Modelled from the spec: `CompletedEvent` from `takopi.model`: the
terminal event of a run (`usage` is an optional mapping, embedded as a
`PyVal` that is `.none` when absent). -/
structure CompletedEvent where
  engine : String
  ok : Bool
  answer : String
  resume : Option ResumeToken
  error : Option String
  usage : PyVal

/-- Modelled from the spec: `TakopiEvent`, the closed union of normalized
events. -/
inductive TakopiEvent where
  | started (e : StartedEvent)
  | action (e : ActionEvent)
  | completed (e : CompletedEvent)

/-!
## Codex event translation (`codex.py` lines 34–406)
-/

def ENGINE : String := "codex"

def STDERR_TAIL_LINES : Nat := 200

/-- `_ACTION_KIND_MAP.get`. -/
def ACTION_KIND_MAP : String → Option String
  | "command_execution" => some "command"
  | "mcp_tool_call" => some "tool"
  | "tool_call" => some "tool"
  | "web_search" => some "web_search"
  | "file_change" => some "file_change"
  | "reasoning" => some "note"
  | "todo_list" => some "note"
  | _ => Option.none

/-- `_started_event`. -/
def startedEvent (token : ResumeToken) (title : String) : StartedEvent :=
  { engine := token.engine, resume := token, title := title }

/-- `_completed_event`. -/
def completedEvent (resume : Option ResumeToken) (ok : Bool) (answer : String)
    (error : Option String) (usage : PyVal) : TakopiEvent :=
  .completed { engine := ENGINE, ok := ok, answer := answer, resume := resume,
               error := error, usage := usage }

/-- `_action_event` (`detail or {}` applied to the detail argument). -/
def actionEvent (phase : String) (actionId : String) (kind : String) (title : String)
    (detail : PyVal) (ok : Option Bool) (message : Option String) (level : Option String) :
    TakopiEvent :=
  .action { engine := ENGINE,
            action := { id := actionId, kind := kind, title := title,
                        detail := pyOr detail (.dict []) },
            phase := phase, ok := ok, message := message, level := level }

/-- `_note_completed`. -/
def noteCompleted (actionId : String) (message : String) (ok : Bool) (detail : PyVal) :
    TakopiEvent :=
  actionEvent "completed" actionId "warning" message detail (some ok) (some message)
    (some (if ok then "info" else "warning"))

/-- `_short_tool_name`: `".".join(part for part in (server, tool) if part)`.
`str.join` raises `TypeError` when some kept (truthy) part is not a string;
the error propagates out of the translation. -/
def shortToolName (item : PyVal) : Except String String :=
  let parts := ([item.get "server", item.get "tool"]).filter PyVal.truthy
  if parts.all PyVal.isStr then
    let name := strIntercalate "." (parts.map pyStr)
    .ok (if name == "" then "tool" else name)
  else .error "TypeError: join expects str tool name parts"

/-- `_summarize_tool_result`. -/
def summarizeToolResult (result : PyVal) : PyVal :=
  match result with
  | .dict _ =>
    let s1 : List (String × PyVal) :=
      match result.get "content" with
      | .list xs => [("content_blocks", .int xs.length)]
      | .none => []
      | _ => [("content_blocks", .int 1)]
    let structuredKey : Option String :=
      if result.hasKey "structured_content" then some "structured_content"
      else if result.hasKey "structured" then some "structured"
      else Option.none
    let s2 : List (String × PyVal) :=
      match structuredKey with
      | some k => [("has_structured", .bool (!(result.get k).isNone))]
      | Option.none => []
    let summary := s1 ++ s2
    if summary.isEmpty then .none else .dict summary
  | _ => .none

/-- `_format_change_summary`: the comprehension `[c.get("path") for c in
changes if c.get("path")]` iterates `changes` and calls `.get` on every
element, so a truthy non-list `changes` (iterating its keys or characters, or
not iterable at all) and a list element that is not a dict both raise; the
error propagates out of the translation. -/
def formatChangeSummary (item : PyVal) : Except String String :=
  match pyOr (item.get "changes") (.list []) with
  | .list changes =>
    if changes.all PyVal.isDict then
      let paths := changes.filterMap (fun c =>
        if (c.get "path").truthy then some (c.get "path") else Option.none)
      .ok (if paths.isEmpty then
            (if changes.length == 0 then "files" else toString changes.length ++ " files")
          else strIntercalate ", " (paths.map pyStr))
    else .error "AttributeError: change entry has no attribute get"
  | _ => .error "TypeError: changes value cannot be iterated as mappings"

/-- `_TodoSummary`. -/
structure TodoSummary where
  done : Nat
  total : Nat
  nextText : Option String

/-- The loop of `_summarize_todo_list`. -/
def summarizeTodoListAux : List PyVal → Nat → Nat → Option String → TodoSummary
  | [], done, total, nextText => { done := done, total := total, nextText := nextText }
  | raw :: rest, done, total, nextText =>
    match raw with
    | .dict _ =>
      let completed := match raw.get "completed" with | .bool true => true | _ => false
      if completed then summarizeTodoListAux rest (done + 1) (total + 1) nextText
      else
        match nextText with
        | some t => summarizeTodoListAux rest done (total + 1) (some t)
        | Option.none =>
          let text := raw.get "text"
          let nt := if text.isNone then (Option.none : Option String) else some (pyStr text)
          summarizeTodoListAux rest done (total + 1) nt
    | _ => summarizeTodoListAux rest done total nextText

/-- `_summarize_todo_list`. -/
def summarizeTodoList (items : PyVal) : TodoSummary :=
  match items with
  | .list xs => summarizeTodoListAux xs 0 0 Option.none
  | _ => { done := 0, total := 0, nextText := Option.none }

/-- `_todo_title`. -/
def todoTitle (summary : TodoSummary) : String :=
  if summary.total == 0 then "todo"
  else
    match summary.nextText with
    | some t =>
      if t != "" then
        "todo " ++ toString summary.done ++ "/" ++ toString summary.total ++ ": " ++ t
      else "todo " ++ toString summary.done ++ "/" ++ toString summary.total ++ ": done"
    | Option.none => "todo " ++ toString summary.done ++ "/" ++ toString summary.total ++ ": done"

/-- `etype.split(".")[-1]`: the last dot-separated component. -/
def lastDotComponent (s : String) : String :=
  ((s.data.reverse.takeWhile (fun c => c != '.')).reverse).asString

/-- The body of `_translate_item_event` from the `error` check on (codex.py
lines 211–389), with the locals in scope as parameters (`itemType` the
normalized item type, `actionId` the non-empty string id, `phase` =
`etype.split(".")[-1]`).  An `.error` is a `TypeError`/`AttributeError`
escaping the translation: `_ACTION_KIND_MAP.get(item_type)` raises on an
unhashable (list or dict) item type, `_short_tool_name` raises on a truthy
non-string server or tool, and `_format_change_summary` raises on malformed
`changes` (crash messages are descriptive, not CPython message text). -/
def translateItemDispatch (itemType : PyVal) (actionId phase : String) (item : PyVal) :
    Except String (List TakopiEvent) :=
  if itemType.eqStr "error" then
    if phase != "completed" then .ok []
    else
      let message := pyStr (pyOr (item.get "message") (.str "codex item error"))
      .ok [actionEvent "completed" actionId "warning" message
        (.dict [("message", .str message)]) (some false) (some message) (some "warning")]
  else
    match itemType with
    | .list _ => .error "TypeError: unhashable item type"
    | .dict _ => .error "TypeError: unhashable item type"
    | _ =>
    match (match itemType with | .str t => ACTION_KIND_MAP t | _ => Option.none) with
    | Option.none => .ok []
    | some kind =>
      if kind == "command" then
        let title := pyStr (pyOr (item.get "command") (.str ""))
        if phase == "started" || phase == "updated" then
          .ok [actionEvent phase actionId kind title .none Option.none Option.none Option.none]
        else if phase == "completed" then
          let exitCode := item.get "exit_code"
          let ok0 := !(item.get "status").eqStr "failed"
          let ok := match exitCode with
            | .int n => ok0 && n == 0
            | .bool b => ok0 && !b
            | _ => ok0
          let detail := PyVal.dict [("exit_code", exitCode), ("status", item.get "status")]
          .ok [actionEvent "completed" actionId kind title detail (some ok)
            Option.none Option.none]
        else .ok []
      else if kind == "tool" then
        match shortToolName item with
        | .error m => .error m
        | .ok stn =>
          let detail0 : List (String × PyVal) :=
            [("server", item.get "server"), ("tool", item.get "tool"),
             ("status", item.get "status")]
          let detail0 :=
            if item.hasKey "arguments" then detail0 ++ [("arguments", item.get "arguments")]
            else detail0
          let td : String × List (String × PyVal) :=
            if itemType.eqStr "tool_call" then
              let name := item.get "name"
              let toolName := if name.truthy then pyStr name else "tool"
              let d : List (String × PyVal) := [("name", name), ("status", item.get "status")]
              let d :=
                if item.hasKey "arguments" then d ++ [("arguments", item.get "arguments")]
                else d
              (toolName, d)
            else (stn, detail0)
          let title := td.1
          if phase == "started" || phase == "updated" then
            .ok [actionEvent phase actionId kind title (.dict td.2)
              Option.none Option.none Option.none]
          else if phase == "completed" then
            let ok := !(item.get "status").eqStr "failed" && !(item.get "error").truthy
            let error := item.get "error"
            let d1 :=
              if error.truthy then
                td.2 ++ [("error_message",
                  .str (match error with
                        | .dict _ => pyStr (error.get "message")
                        | e => pyStr e))]
              else td.2
            let resultSummary := summarizeToolResult (item.get "result")
            let d2 :=
              if !resultSummary.isNone then d1 ++ [("result_summary", resultSummary)]
              else d1
            .ok [actionEvent "completed" actionId kind title (.dict d2) (some ok)
              Option.none Option.none]
          else .ok []
      else if kind == "web_search" then
        let title := pyStr (pyOr (item.get "query") (.str ""))
        let detail := PyVal.dict [("query", item.get "query")]
        if phase == "started" || phase == "updated" then
          .ok [actionEvent phase actionId kind title detail Option.none Option.none Option.none]
        else if phase == "completed" then
          .ok [actionEvent "completed" actionId kind title detail (some true)
            Option.none Option.none]
        else .ok []
      else if kind == "file_change" then
        if phase != "completed" then .ok []
        else
          match formatChangeSummary item with
          | .error m => .error m
          | .ok title =>
            let detail := PyVal.dict
              [("changes", pyOr (item.get "changes") (.list [])),
               ("status", item.get "status"), ("error", item.get "error")]
            let ok := !(item.get "status").eqStr "failed"
            .ok [actionEvent "completed" actionId kind title detail (some ok)
              Option.none Option.none]
      else if kind == "note" then
        let td : String × PyVal :=
          if itemType.eqStr "todo_list" then
            let summary := summarizeTodoList (item.get "items")
            (todoTitle summary,
             .dict [("done", .int summary.done), ("total", .int summary.total)])
          else (pyStr (pyOr (item.get "text") (.str "")), .none)
        if phase == "started" || phase == "updated" then
          .ok [actionEvent phase actionId kind td.1 td.2 Option.none Option.none Option.none]
        else if phase == "completed" then
          .ok [actionEvent "completed" actionId kind td.1 td.2 (some true)
            Option.none Option.none]
        else .ok []
      else .ok []

/-- `_translate_item_event` (codex.py lines 193–389): its first statement,
`item.get("type")`, raises `AttributeError` when `item` is not a dict (the
caller passes `event.get("item") or {}`, so a non-dict here is a truthy
non-dict `item` field); otherwise normalize the item type, drop agent
messages and id-less items, then dispatch. -/
def translateItemEvent (etype : String) (item : PyVal) : Except String (List TakopiEvent) :=
  if !item.isDict then .error "AttributeError: item value has no attribute get"
  else
    let itemType0 := pyOr (item.get "type") (item.get "item_type")
    let itemType :=
      if itemType0.eqStr "assistant_message" then PyVal.str "agent_message" else itemType0
    if !itemType.truthy then .ok []
    else if itemType.eqStr "agent_message" then .ok []
    else
      match item.get "id" with
      | .str actionId =>
        if actionId == "" then .ok []
        else translateItemDispatch itemType actionId (lastDotComponent etype) item
      | _ => .ok []

/-- `translate_codex_event` (codex.py lines 392–406); `_run` calls it only
after `evt.get("type")` has already succeeded, so `event` is a dict here. -/
def translateCodexEvent (event : PyVal) (title : String) : Except String (List TakopiEvent) :=
  let etype := event.get "type"
  if etype.eqStr "thread.started" then
    let threadId := event.get "thread_id"
    if threadId.truthy then
      .ok [TakopiEvent.started
        (startedEvent { engine := ENGINE, value := pyStr threadId } title)]
    else .ok []
  else if etype.eqStr "item.started" || etype.eqStr "item.updated"
      || etype.eqStr "item.completed" then
    let item := pyOr (event.get "item") (.dict [])
    translateItemEvent (match etype with | .str t => t | _ => "") item
  else .ok []

/-!
## The `_run` stdout loop (codex.py lines 539–761)

The subprocess is embedded at its observable interface: the classified
stdout lines (blank after `strip()`, failing `json.loads`, or a parsed JSON
value), the process exit code `rc` (`await proc.wait()`), and the stderr
lines (drained concurrently into a `deque(maxlen=200)`, hence the last 200
lines at exit).  Cancellation and the shielded teardown never touch the
event stream and are outside the embedding.  A `raise` escaping the async
generator is the `.raised` outcome: events yielded before it stand and no
further event is delivered.  That covers both the deliberate `RuntimeError`s
(session mismatch, foreign session engine) and the type errors `_run` does
not guard against: `evt.get("type")` on a valid-JSON line whose top-level
value is not an object (codex.py 613), `error.get("message")` on a
`turn.failed` whose `error` is a truthy non-dict (640–641), `item.get` on a
truthy non-dict `item` (682, 194), and the crashes inside item translation
(unhashable map key, `str.join` on non-strings, malformed `changes`).  The
raise messages are descriptive, not CPython message text.
-/

/-- One line read from the subprocess stdout, classified as `_run` does:
blank after `strip()`, rejected by `json.loads`, or parsed. -/
inductive StdoutLine where
  | blank
  | malformed (line : String)
  | json (v : PyVal)

/-- The loop-local state of `_run` (codex.py lines 575–585). -/
structure RunState where
  expectedSession : Option ResumeToken
  foundSession : Option ResumeToken := Option.none
  finalAnswer : Option String := Option.none
  noteSeq : Nat := 0
  didEmitCompleted : Bool := false
  turnIndex : Nat := 0
  sessionLockAcquired : Bool := false

/-- `next_note_id`. -/
def nextNoteId (n : Nat) : String := "codex.note." ++ toString n

/-- The `for out_evt in translate_codex_event(...)` body (codex.py lines
696–719): filter `StartedEvent`s — engine check, resume-mismatch check, lock
acquisition for non-resuming runs, at most one `StartedEvent` — and pass
other events through.  A `some msg` third component is a `RuntimeError`
escaping the generator. -/
def emitTranslated (st : RunState) :
    List TakopiEvent → RunState × List TakopiEvent × Option String
  | [] => (st, [], Option.none)
  | e :: rest =>
    match e with
    | .started se =>
      match st.foundSession with
      | Option.none =>
        if se.resume.engine != ENGINE then
          (st, [],
           some ("codex emitted session token for engine \x27" ++ se.resume.engine ++ "\x27"))
        else if (match st.expectedSession with
                 | some exp => decide (se.resume ≠ exp)
                 | Option.none => false) then
          (st, [], some "codex emitted a different session id than expected")
        else
          let st := { st with
            foundSession := some se.resume,
            sessionLockAcquired := st.sessionLockAcquired || st.expectedSession.isNone }
          let r := emitTranslated st rest
          (r.1, e :: r.2.1, r.2.2)
      | some _ => emitTranslated st rest
    | _ =>
      let r := emitTranslated st rest
      (r.1, e :: r.2.1, r.2.2)

/-- The final-agent-message capture of `_run` (codex.py lines 680–694): on an
`item.completed` record whose (normalized) item type is `agent_message` and
whose `text` is a string, the running answer becomes that text (the latest
such record wins).  The crash of this block — `item.get("type")` at line 682
when `item` is a truthy non-dict — is surfaced by the guard in `stepLine`
right before this function is applied, so `item` is a dict whenever the
capture runs. -/
def captureAnswer (st : RunState) (evt : PyVal) : RunState :=
  if (evt.get "type").eqStr "item.completed" then
    let item := pyOr (evt.get "item") (.dict [])
    let itemType0 := pyOr (item.get "type") (item.get "item_type")
    let itemType :=
      if itemType0.eqStr "assistant_message" then PyVal.str "agent_message"
      else itemType0
    if itemType.eqStr "agent_message" then
      match item.get "text" with
      | .str text => { st with finalAnswer := some text }
      | _ => st
    else st
  else st

/-- One iteration of `async for raw_line in _iter_text_lines(proc.stdout)`
(codex.py lines 592–719).  `evt.get("type")` (line 613) raises when the
parsed JSON value is not an object; `error.get("message")` (641) raises on a
`turn.failed` whose `error` field is a truthy non-dict; the answer capture
(682) raises on an `item.completed` whose `item` field is a truthy non-dict;
further type errors escape `translate_codex_event`.  (For
`turn.rate_limited` and the command `exit_code`, Python lets a bool pass the
`isinstance(…, int)` test; both payload shapes are embedded.) -/
def stepLine (title : String) (st : RunState) (l : StdoutLine) :
    RunState × List TakopiEvent × Option String :=
  match l with
  | .blank => (st, [], Option.none)
  | .malformed line =>
    if st.didEmitCompleted then (st, [], Option.none)
    else
      let st := { st with noteSeq := st.noteSeq + 1 }
      (st, [noteCompleted (nextNoteId st.noteSeq) "invalid JSON from codex; ignoring line"
              false (.dict [("line", .str line)])], Option.none)
  | .json evt =>
    if st.didEmitCompleted then (st, [], Option.none)
    else if !evt.isDict then
      (st, [], some "AttributeError: JSON line is not an object")
    else
      let etype := evt.get "type"
      if etype.eqStr "error" then
        let message := pyStr (pyOr (evt.get "message") (.str "codex error"))
        let fatal := match evt.get "fatal" with
          | .bool true => true
          | .none => true
          | _ => false
        if fatal then
          let st := { st with didEmitCompleted := true }
          (st, [completedEvent (st.foundSession.or st.expectedSession) false
                  (st.finalAnswer.getD "") (some message) .none], Option.none)
        else
          let st := { st with noteSeq := st.noteSeq + 1 }
          (st, [noteCompleted (nextNoteId st.noteSeq) message false
                  (.dict [("code", evt.get "code"), ("fatal", evt.get "fatal")])], Option.none)
      else if etype.eqStr "turn.failed" then
        let error := pyOr (evt.get "error") (.dict [])
        if !error.isDict then
          (st, [], some "AttributeError: turn.failed error value has no attribute get")
        else
          let message := pyStr (pyOr (error.get "message") (.str "codex turn failed"))
          let st := { st with didEmitCompleted := true }
          (st, [completedEvent (st.foundSession.or st.expectedSession) false
                  (st.finalAnswer.getD "") (some message) .none], Option.none)
      else if etype.eqStr "turn.rate_limited" then
        let message := match evt.get "retry_after_ms" with
          | .int n => "rate limited (retry after " ++ toString n ++ "ms)"
          | .bool b => "rate limited (retry after " ++ (if b then "True" else "False") ++ "ms)"
          | _ => "rate limited"
        let st := { st with noteSeq := st.noteSeq + 1 }
        (st, [noteCompleted (nextNoteId st.noteSeq) message false .none], Option.none)
      else if etype.eqStr "turn.started" then
        let actionId := "turn_" ++ toString st.turnIndex
        let st := { st with turnIndex := st.turnIndex + 1 }
        (st, [actionEvent "started" actionId "turn" "turn started" .none
                Option.none Option.none Option.none], Option.none)
      else if etype.eqStr "turn.completed" then
        let st := { st with didEmitCompleted := true }
        (st, [completedEvent (st.foundSession.or st.expectedSession) true
                (st.finalAnswer.getD "") Option.none (evt.get "usage")], Option.none)
      else if (evt.get "type").eqStr "item.completed"
          && !(pyOr (evt.get "item") (.dict [])).isDict then
        (st, [], some "AttributeError: item value has no attribute get")
      else
        match translateCodexEvent evt title with
        | .error m => (captureAnswer st evt, [], some m)
        | .ok evts => emitTranslated (captureAnswer st evt) evts

/-- The whole `async for` over stdout lines. -/
def loopLines (title : String) (st : RunState) :
    List StdoutLine → RunState × List TakopiEvent × Option String
  | [] => (st, [], Option.none)
  | l :: ls =>
    let r := stepLine title st l
    match r.2.2 with
    | some m => (r.1, r.2.1, some m)
    | Option.none =>
      let r2 := loopLines title r.1 ls
      (r2.1, r.2.1 ++ r2.2.1, r2.2.2)

inductive RunOutcome where
  | finished
  | raised (msg : String)
deriving DecidableEq

structure RunResult where
  events : List TakopiEvent
  outcome : RunOutcome
  state : RunState

/-- The post-loop epilogue of `_run` (codex.py lines 720–761): after
`rc = await proc.wait()`, synthesize the terminal event when the stream
ended without one. -/
def runEpilogue (st : RunState) (rc : Int) (stderrLines : List String) : List TakopiEvent :=
  if st.didEmitCompleted then []
  else if rc != 0 then
    let stderrText := String.join (stderrLines.drop (stderrLines.length - STDERR_TAIL_LINES))
    let message := "codex exec failed (rc=" ++ toString rc ++ ")."
    [noteCompleted (nextNoteId (st.noteSeq + 1)) message false
       (.dict [("stderr_tail", .str stderrText)]),
     completedEvent (st.foundSession.or st.expectedSession) false (st.finalAnswer.getD "")
       (some message) .none]
  else if st.foundSession.isNone then
    [completedEvent st.expectedSession false (st.finalAnswer.getD "")
       (some "codex exec finished but no session_id/thread_id was captured") .none]
  else
    [completedEvent st.foundSession true (st.finalAnswer.getD "") Option.none .none]

/-- `CodexRunner._run`, observed at its event-stream interface: the events
delivered to the caller, whether the generator finished normally or a
`RuntimeError` escaped it, and the final loop state. -/
def runLoop (resume : Option ResumeToken) (title : String) (lines : List StdoutLine)
    (rc : Int) (stderrLines : List String) : RunResult :=
  let r := loopLines title { expectedSession := resume } lines
  match r.2.2 with
  | some m => { events := r.2.1, outcome := .raised m, state := r.1 }
  | Option.none =>
    { events := r.2.1 ++ runEpilogue r.1 rc stderrLines, outcome := .finished, state := r.1 }

/-- `CodexRunner._lock_for`'s key: `f"{token.engine}:{token.value}"`. -/
def lockKey (token : ResumeToken) : String := token.engine ++ ":" ++ token.value

/-- The observable outcome of `CodexRunner.run`: either the engine-check
`RuntimeError` raised before any lock, spawn or event, or a delegated run
under an optional pre-acquired session lock. -/
inductive RunTopResult where
  | raisedEarly (msg : String)
  | ran (lockedKey : Option String) (result : RunResult)

/-- `CodexRunner.run` (codex.py lines 522–537): the engine check precedes
`_lock_for`, the lock acquisition and the delegation to `_run` (which spawns
the process).  `locks` is the key set of the `_session_locks` registry,
returned unchanged when the engine check raises. -/
def CodexRunner.run (locks : List String) (prompt : String) (resume : Option ResumeToken)
    (title : String) (lines : List StdoutLine) (rc : Int) (stderrLines : List String) :
    RunTopResult × List String :=
  match resume with
  | some token =>
    if token.engine != ENGINE then
      (.raisedEarly ("resume token is for engine \x27" ++ token.engine ++ "\x27, not \x27"
         ++ ENGINE ++ "\x27"), locks)
    else
      let keys := if locks.contains (lockKey token) then locks else locks ++ [lockKey token]
      (.ran (some (lockKey token)) (runLoop resume title lines rc stderrLines), keys)
  | Option.none =>
    (.ran Option.none (runLoop resume title lines rc stderrLines), locks)

/-- `isinstance(e, CompletedEvent)` for counting. -/
def isCompletedEvt : TakopiEvent → Bool
  | .completed _ => true
  | _ => false

/-- `isinstance(e, StartedEvent)` for counting. -/
def isStartedEvt : TakopiEvent → Bool
  | .started _ => true
  | _ => false

/-- `isinstance(e, ActionEvent)`. -/
def isActionEvt : TakopiEvent → Bool
  | .action _ => true
  | _ => false

/-- Spec-side reference (§4.3): a stdout record that ends the run — a
`turn.completed`, a `turn.failed`, or an `error` record that is fatal
(`fatal` true or absent). -/
def specIsTerminalLine : StdoutLine → Bool
  | .json evt =>
    (evt.get "type").eqStr "turn.completed" || (evt.get "type").eqStr "turn.failed" ||
    ((evt.get "type").eqStr "error" &&
      (match evt.get "fatal" with | .bool true => true | .none => true | _ => false))
  | _ => false

/-- Spec-side reference (C5): the text of a final-agent-message record — an
`item.completed` whose item type normalizes to `agent_message` and whose
`text` is a string. -/
def specAgentText : StdoutLine → Option String
  | .json evt =>
    if (evt.get "type").eqStr "item.completed" then
      let item := pyOr (evt.get "item") (.dict [])
      let itemType0 := pyOr (item.get "type") (item.get "item_type")
      let itemType :=
        if itemType0.eqStr "assistant_message" then PyVal.str "agent_message"
        else itemType0
      if itemType.eqStr "agent_message" then
        match item.get "text" with
        | .str text => some text
        | _ => Option.none
      else Option.none
    else Option.none
  | _ => Option.none

/-- Spec-side reference (C5): the latest final-agent-message text seen
strictly before the first terminal record (or the empty string). -/
def specLatestAnswerAux : Option String → List StdoutLine → String
  | acc, [] => acc.getD ""
  | acc, l :: ls =>
    if specIsTerminalLine l then acc.getD ""
    else specLatestAnswerAux ((specAgentText l).or acc) ls

/-- Spec-side reference (C5). -/
def specLatestAnswer (lines : List StdoutLine) : String :=
  specLatestAnswerAux Option.none lines

/-- Spec-side reference (C2): a terminal record ends the run successfully
iff it is a `turn.completed`. -/
def specLineOk : StdoutLine → Bool
  | .json evt => (evt.get "type").eqStr "turn.completed"
  | _ => false

/-- Spec-side reference (C2): whether the first terminal record of the
stream, if any, is a successful one. -/
def specFirstTerminalOk : List StdoutLine → Bool
  | [] => false
  | l :: ls => if specIsTerminalLine l then specLineOk l else specFirstTerminalOk ls

theorem captureAnswer_eq (st : RunState) (evt : PyVal) :
    captureAnswer st evt =
      { st with finalAnswer := (specAgentText (.json evt)).or st.finalAnswer } := by
  unfold captureAnswer
  simp only [specAgentText]
  repeat' split
  all_goals rfl

theorem translateItemDispatch_all_actions (itemType : PyVal) (actionId phase : String)
    (item : PyVal) (l : List TakopiEvent)
    (h : translateItemDispatch itemType actionId phase item = .ok l) :
    l.all isActionEvt = true := by
  unfold translateItemDispatch at h
  repeat' split at h
  all_goals first
    | (injection h with h1; subst h1; rfl)
    | exact Except.noConfusion h

theorem translateItemEvent_all_actions (etype : String) (item : PyVal)
    (l : List TakopiEvent) (h : translateItemEvent etype item = .ok l) :
    l.all isActionEvt = true := by
  unfold translateItemEvent at h
  dsimp only at h
  repeat' split at h
  all_goals first
    | (injection h with h1; subst h1; rfl)
    | exact Except.noConfusion h
    | exact translateItemDispatch_all_actions _ _ _ _ l h

theorem translateCodexEvent_shape (evt : PyVal) (title : String) :
    (∃ se, translateCodexEvent evt title = .ok [TakopiEvent.started se] ∧
      se.resume.engine = ENGINE) ∨
    (∃ l, translateCodexEvent evt title = .ok l ∧ ∀ e ∈ l, isActionEvt e = true) ∨
    (∃ m, translateCodexEvent evt title = .error m) := by
  unfold translateCodexEvent
  dsimp only
  split
  · split
    · exact Or.inl ⟨_, rfl, rfl⟩
    · exact Or.inr (Or.inl ⟨[], rfl, by simp⟩)
  · split
    · cases htr : translateItemEvent
          (match evt.get "type" with | .str t => t | _ => "")
          (pyOr (evt.get "item") (.dict [])) with
      | ok l =>
        refine Or.inr (Or.inl ⟨l, rfl, ?_⟩)
        have hall := translateItemEvent_all_actions
          (match evt.get "type" with | .str t => t | _ => "")
          (pyOr (evt.get "item") (.dict [])) l htr
        exact fun e he => List.all_eq_true.mp hall e he
      | error m => exact Or.inr (Or.inr ⟨m, rfl⟩)
    · exact Or.inr (Or.inl ⟨[], rfl, by simp⟩)

theorem emitTranslated_actions (st : RunState) (evts : List TakopiEvent)
    (h : ∀ e ∈ evts, isActionEvt e = true) :
    emitTranslated st evts = (st, evts, Option.none) := by
  induction evts with
  | nil => rfl
  | cons e rest ih =>
    have he := h e (List.mem_cons_self e rest)
    have hrest : ∀ x ∈ rest, isActionEvt x = true :=
      fun x hx => h x (List.mem_cons_of_mem e hx)
    cases e with
    | action a =>
      simp only [emitTranslated, ih hrest]
    | started se => simp [isActionEvt] at he
    | completed c => simp [isActionEvt] at he

theorem emitTranslated_started (st : RunState) (se : StartedEvent)
    (he : se.resume.engine = ENGINE) :
    (emitTranslated st [TakopiEvent.started se]).1.expectedSession = st.expectedSession ∧
    (emitTranslated st [TakopiEvent.started se]).1.finalAnswer = st.finalAnswer ∧
    (emitTranslated st [TakopiEvent.started se]).1.didEmitCompleted = st.didEmitCompleted ∧
    (emitTranslated st [TakopiEvent.started se]).2.1.countP isCompletedEvt = 0 ∧
    (st.foundSession.isSome = true →
      (emitTranslated st [TakopiEvent.started se]).2.1.countP isStartedEvt = 0 ∧
      (emitTranslated st [TakopiEvent.started se]).1.foundSession = st.foundSession) ∧
    (st.foundSession = Option.none →
      (emitTranslated st [TakopiEvent.started se]).2.1.countP isStartedEvt =
        (if (emitTranslated st [TakopiEvent.started se]).1.foundSession.isSome then 1 else 0)) ∧
    ((emitTranslated st [TakopiEvent.started se]).2.2.isSome = true →
      (emitTranslated st [TakopiEvent.started se]).2.1 = []) := by
  unfold emitTranslated
  cases hf : st.foundSession with
  | some tok =>
    simp [emitTranslated, hf]
  | none =>
    simp only [hf]
    rw [he, bne_self_eq_false]
    simp only [Bool.false_eq_true, if_false]
    split
    · simp [hf]
    · simp [emitTranslated, isStartedEvt, isCompletedEvt, List.countP_cons]

theorem isActionEvt_not_started {e : TakopiEvent} (h : isActionEvt e = true) :
    isStartedEvt e = false ∧ isCompletedEvt e = false := by
  cases e <;> simp_all [isActionEvt, isStartedEvt, isCompletedEvt]

theorem countP_zero_of_actions (evts : List TakopiEvent)
    (h : ∀ e ∈ evts, isActionEvt e = true) :
    evts.countP isStartedEvt = 0 ∧ evts.countP isCompletedEvt = 0 := by
  constructor
  · exact List.countP_eq_zero.mpr fun e he => by
      simp [(isActionEvt_not_started (h e he)).1]
  · exact List.countP_eq_zero.mpr fun e he => by
      simp [(isActionEvt_not_started (h e he)).2]

theorem stepLine_didEmit (title : String) (st : RunState) (l : StdoutLine)
    (h : st.didEmitCompleted = true) : stepLine title st l = (st, [], Option.none) := by
  cases l <;> simp [stepLine, h]

theorem PyVal.eqStr_unique {v : PyVal} {a : String} (b : String) (h : v.eqStr a = true)
    (hne : a ≠ b) : v.eqStr b = false := by
  cases v with
  | str t =>
    have ht : t = a := by simpa [PyVal.eqStr] using h
    subst ht
    simpa [PyVal.eqStr] using hne
  | none => simp [PyVal.eqStr]
  | bool x => simp [PyVal.eqStr]
  | int n => simp [PyVal.eqStr]
  | list xs => simp [PyVal.eqStr]
  | dict fs => simp [PyVal.eqStr]

theorem stepLine_spec (title : String) (st : RunState) (l : StdoutLine)
    (h : st.didEmitCompleted = false) :
    (stepLine title st l).1.expectedSession = st.expectedSession ∧
    (st.foundSession.isSome = true →
       (stepLine title st l).2.1.countP isStartedEvt = 0 ∧
       (stepLine title st l).1.foundSession = st.foundSession) ∧
    (st.foundSession = Option.none →
       (stepLine title st l).2.1.countP isStartedEvt =
         (if (stepLine title st l).1.foundSession.isSome then 1 else 0)) ∧
    ((stepLine title st l).2.2.isSome = true →
       (stepLine title st l).2.1 = [] ∧
       (stepLine title st l).1.didEmitCompleted = false) ∧
    ((stepLine title st l).1.didEmitCompleted = false →
       (stepLine title st l).2.2 = Option.none →
       (stepLine title st l).2.1.countP isCompletedEvt = 0 ∧
       specIsTerminalLine l = false ∧
       (stepLine title st l).1.finalAnswer = (specAgentText l).or st.finalAnswer) ∧
    ((stepLine title st l).1.didEmitCompleted = true →
       (stepLine title st l).2.2 = Option.none ∧
       specIsTerminalLine l = true ∧
       (∃ c, (stepLine title st l).2.1 = [TakopiEvent.completed c] ∧
         c.answer = st.finalAnswer.getD "" ∧ c.ok = specLineOk l) ∧
       (stepLine title st l).1.finalAnswer = st.finalAnswer) := by
  cases l with
  | blank =>
    refine ⟨rfl, fun _ => ⟨rfl, rfl⟩, ?_, ?_, ?_, ?_⟩
    · intro hf
      simp [stepLine, hf]
    · intro hcontra
      simp [stepLine] at hcontra
    · intro _ _
      exact ⟨rfl, rfl, rfl⟩
    · intro hcontra
      simp [stepLine, h] at hcontra
  | malformed line =>
    simp [stepLine, h, specIsTerminalLine, specAgentText, noteCompleted, actionEvent,
      isStartedEvt, isCompletedEvt]
    intro hf
    simp [hf]
  | json evt =>
    simp only [stepLine, h, Bool.false_eq_true, if_false]
    split
    next hnd =>
      refine ⟨rfl, fun _ => ⟨rfl, rfl⟩, ?_, fun _ => ⟨rfl, h⟩, ?_, ?_⟩
      · intro hf
        simp [hf]
      · intro _ hcontra
        exact absurd hcontra (by simp)
      · intro hcontra
        exact absurd hcontra (by simp [h])
    split
    next herr =>
      split
      next hfatal =>
        refine ⟨rfl, fun _ => ⟨rfl, rfl⟩, ?_, ?_, ?_, ?_⟩
        · intro hf
          simp [hf, isStartedEvt, completedEvent, List.countP_cons]
        · intro hcontra
          exact absurd hcontra (by simp)
        · intro hcontra
          exact absurd hcontra (by simp)
        · intro _
          exact ⟨rfl, by simp [specIsTerminalLine, herr, hfatal],
            ⟨_, rfl, rfl, by simp [specLineOk,
              PyVal.eqStr_unique "turn.completed" herr (by decide)]⟩, rfl⟩
      next hfatal =>
        simp only [Bool.not_eq_true] at hfatal
        refine ⟨rfl, fun _ => ⟨rfl, rfl⟩, ?_, ?_, ?_, ?_⟩
        · intro hf
          simp [hf, isStartedEvt, noteCompleted, actionEvent, List.countP_cons]
        · intro hcontra
          exact absurd hcontra (by simp)
        · intro _ _
          refine ⟨rfl, ?_, ?_⟩
          · have h1 := PyVal.eqStr_unique "turn.completed" herr (by decide)
            have h2 := PyVal.eqStr_unique "turn.failed" herr (by decide)
            simp [specIsTerminalLine, h1, h2, hfatal]
          · have h3 := PyVal.eqStr_unique "item.completed" herr (by decide)
            simp [specAgentText, h3]
        · intro hcontra
          simp [h] at hcontra
    next herr =>
      simp only [Bool.not_eq_true] at herr
      split
      next htf =>
        split
        next hbaderr =>
          refine ⟨rfl, fun _ => ⟨rfl, rfl⟩, ?_, fun _ => ⟨rfl, h⟩, ?_, ?_⟩
          · intro hf
            simp [hf]
          · intro _ hcontra
            exact absurd hcontra (by simp)
          · intro hcontra
            exact absurd hcontra (by simp [h])
        next _hbaderr =>
          refine ⟨rfl, fun _ => ⟨rfl, rfl⟩, ?_, ?_, ?_, ?_⟩
          · intro hf
            simp [hf, isStartedEvt, completedEvent, List.countP_cons]
          · intro hcontra
            exact absurd hcontra (by simp)
          · intro hcontra
            exact absurd hcontra (by simp)
          · intro _
            exact ⟨rfl, by simp [specIsTerminalLine, htf],
              ⟨_, rfl, rfl, by simp [specLineOk,
                PyVal.eqStr_unique "turn.completed" htf (by decide)]⟩, rfl⟩
      next htf =>
        simp only [Bool.not_eq_true] at htf
        split
        next hrl =>
          refine ⟨rfl, fun _ => ⟨rfl, rfl⟩, ?_, ?_, ?_, ?_⟩
          · intro hf
            simp [hf, isStartedEvt, noteCompleted, actionEvent, List.countP_cons]
          · intro hcontra
            exact absurd hcontra (by simp)
          · intro _ _
            refine ⟨rfl, ?_, ?_⟩
            · have h1 := PyVal.eqStr_unique "turn.completed" hrl (by decide)
              simp [specIsTerminalLine, h1, htf, herr]
            · have h3 := PyVal.eqStr_unique "item.completed" hrl (by decide)
              simp [specAgentText, h3]
          · intro hcontra
            simp [h] at hcontra
        next hrl =>
          split
          next hts =>
            refine ⟨rfl, fun _ => ⟨rfl, rfl⟩, ?_, ?_, ?_, ?_⟩
            · intro hf
              simp [hf, isStartedEvt, actionEvent, List.countP_cons]
            · intro hcontra
              exact absurd hcontra (by simp)
            · intro _ _
              refine ⟨rfl, ?_, ?_⟩
              · have h1 := PyVal.eqStr_unique "turn.completed" hts (by decide)
                simp [specIsTerminalLine, h1, htf, herr]
              · have h3 := PyVal.eqStr_unique "item.completed" hts (by decide)
                simp [specAgentText, h3]
            · intro hcontra
              simp [h] at hcontra
          next hts =>
            split
            next htc =>
              refine ⟨rfl, fun _ => ⟨rfl, rfl⟩, ?_, ?_, ?_, ?_⟩
              · intro hf
                simp [hf, isStartedEvt, completedEvent, List.countP_cons]
              · intro hcontra
                exact absurd hcontra (by simp)
              · intro hcontra
                exact absurd hcontra (by simp)
              · intro _
                exact ⟨rfl, by simp [specIsTerminalLine, htc],
                  ⟨_, rfl, rfl, by simp [specLineOk, htc]⟩, rfl⟩
            next htc =>
              simp only [Bool.not_eq_true] at htc
              split
              next hbaditem =>
                refine ⟨rfl, fun _ => ⟨rfl, rfl⟩, ?_, fun _ => ⟨rfl, h⟩, ?_, ?_⟩
                · intro hf
                  simp [hf]
                · intro _ hcontra
                  exact absurd hcontra (by simp)
                · intro hcontra
                  exact absurd hcontra (by simp [h])
              next hbaditem =>
                rcases translateCodexEvent_shape evt title with
                  ⟨se, hse, heng⟩ | ⟨lst, hok, hall⟩ | ⟨m, herrm⟩
                · rw [hse]
                  dsimp only
                  obtain ⟨e1, e2, e3, e4, e5, e6, e7⟩ :=
                    emitTranslated_started (captureAnswer st evt) se heng
                  rw [captureAnswer_eq st evt] at e1 e2 e3 e4 e5 e6 e7
                  rw [captureAnswer_eq st evt]
                  refine ⟨e1, fun hf => e5 hf, fun hf => e6 hf, ?_, ?_, ?_⟩
                  · intro hx
                    exact ⟨e7 hx, by rw [e3]; exact h⟩
                  · intro _ _
                    refine ⟨e4, ?_, e2⟩
                    simp [specIsTerminalLine, herr, htf, htc]
                  · intro hcontra
                    rw [e3] at hcontra
                    simp [h] at hcontra
                · rw [hok]
                  dsimp only
                  rw [emitTranslated_actions _ _ hall, captureAnswer_eq st evt]
                  obtain ⟨cs, cc⟩ := countP_zero_of_actions _ hall
                  refine ⟨rfl, fun _ => ⟨cs, rfl⟩, ?_, ?_, ?_, ?_⟩
                  · intro hf
                    simp [hf, cs]
                  · intro hcontra
                    exact absurd hcontra (by simp)
                  · intro _ _
                    exact ⟨cc, by simp [specIsTerminalLine, herr, htf, htc], rfl⟩
                  · intro hcontra
                    simp [h] at hcontra
                · rw [herrm]
                  dsimp only
                  rw [captureAnswer_eq st evt]
                  refine ⟨rfl, fun _ => ⟨rfl, rfl⟩, ?_, fun _ => ⟨rfl, h⟩, ?_, ?_⟩
                  · intro hf
                    simp [hf]
                  · intro _ hcontra
                    exact absurd hcontra (by simp)
                  · intro hcontra
                    simp [h] at hcontra

theorem loopLines_didEmit (title : String) (st : RunState) (h : st.didEmitCompleted = true)
    (lines : List StdoutLine) : loopLines title st lines = (st, [], Option.none) := by
  induction lines with
  | nil => rfl
  | cons l ls ih =>
    rw [loopLines, stepLine_didEmit title st l h]
    simpa using ih

theorem loopLines_spec (title : String) (lines : List StdoutLine) :
    ∀ (st : RunState), st.didEmitCompleted = false →
    (loopLines title st lines).1.expectedSession = st.expectedSession ∧
    (st.foundSession.isSome = true →
       (loopLines title st lines).2.1.countP isStartedEvt = 0 ∧
       (loopLines title st lines).1.foundSession = st.foundSession) ∧
    (st.foundSession = Option.none →
       (loopLines title st lines).2.1.countP isStartedEvt =
         (if (loopLines title st lines).1.foundSession.isSome then 1 else 0)) ∧
    ((loopLines title st lines).2.2.isSome = true →
       (loopLines title st lines).1.didEmitCompleted = false) ∧
    ((loopLines title st lines).1.didEmitCompleted = false →
       (loopLines title st lines).2.1.countP isCompletedEvt = 0 ∧
       ((loopLines title st lines).2.2 = Option.none →
          specLatestAnswerAux st.finalAnswer lines =
            ((loopLines title st lines).1.finalAnswer).getD "")) ∧
    ((loopLines title st lines).1.didEmitCompleted = true →
       (loopLines title st lines).2.2 = Option.none ∧
       ∃ pre c, (loopLines title st lines).2.1 = pre ++ [TakopiEvent.completed c] ∧
         pre.countP isCompletedEvt = 0 ∧
         c.answer = specLatestAnswerAux st.finalAnswer lines ∧
         c.ok = specFirstTerminalOk lines) := by
  induction lines with
  | nil =>
    intro st h
    refine ⟨rfl, fun _ => ⟨rfl, rfl⟩, ?_, ?_, ?_, ?_⟩
    · intro hf
      simp [loopLines, hf]
    · intro hcontra
      simp [loopLines] at hcontra
    · intro _
      exact ⟨rfl, fun _ => rfl⟩
    · intro hcontra
      rw [show (loopLines title st []).1 = st from rfl] at hcontra
      rw [hcontra] at h
      exact absurd h (by simp)
  | cons l ls ih =>
    intro st h
    obtain ⟨s1, s2, s3, s4, s5, s6⟩ := stepLine_spec title st l h
    cases hexn : (stepLine title st l).2.2 with
    | some m =>
      have hs4 := s4 (by rw [hexn]; rfl)
      have hde : (stepLine title st l).1.didEmitCompleted = false := hs4.2
      have hloop : loopLines title st (l :: ls) =
          ((stepLine title st l).1, (stepLine title st l).2.1, some m) := by
        rw [loopLines, hexn]
      rw [hloop]
      refine ⟨s1, s2, s3, fun _ => hde, ?_, ?_⟩
      · intro _
        refine ⟨?_, fun hnone => Option.noConfusion hnone⟩
        rw [hs4.1]
        rfl
      · intro hcontra
        rw [hde] at hcontra
        exact absurd hcontra (by simp)
    | none =>
      have hloop : loopLines title st (l :: ls) =
          ((loopLines title (stepLine title st l).1 ls).1,
           (stepLine title st l).2.1 ++ (loopLines title (stepLine title st l).1 ls).2.1,
           (loopLines title (stepLine title st l).1 ls).2.2) := by
        rw [loopLines, hexn]
      rw [hloop]
      cases hde : (stepLine title st l).1.didEmitCompleted with
      | true =>
        obtain ⟨-, hterm, ⟨c, hes, hca, hok⟩, -⟩ := s6 hde
        rw [loopLines_didEmit title _ hde ls]
        refine ⟨s1, ?_, ?_, ?_, ?_, ?_⟩
        · intro hf
          exact ⟨by simp [(s2 hf).1], (s2 hf).2⟩
        · intro hf
          simpa using s3 hf
        · intro hcontra
          simp at hcontra
        · intro hcontra
          rw [hde] at hcontra
          exact absurd hcontra (by simp)
        · intro _
          refine ⟨rfl, [], c, by simp [hes], rfl, ?_, ?_⟩
          · rw [specLatestAnswerAux, if_pos hterm]
            exact hca
          · rw [specFirstTerminalOk, if_pos hterm]
            exact hok
      | false =>
        obtain ⟨i1, i2, i3, i4, i5, i6⟩ := ih (stepLine title st l).1 hde
        obtain ⟨sc0, hterm, hfa⟩ := s5 hde hexn
        have hspec : specLatestAnswerAux st.finalAnswer (l :: ls) =
            specLatestAnswerAux (stepLine title st l).1.finalAnswer ls := by
          rw [specLatestAnswerAux, if_neg (by simp [hterm]), hfa]
        refine ⟨by rw [i1, s1], ?_, ?_, i4, ?_, ?_⟩
        · intro hf
          obtain ⟨c1, c2⟩ := s2 hf
          obtain ⟨c3, c4⟩ := i2 (by rw [c2]; exact hf)
          exact ⟨by simp [c1, c3], by rw [c4, c2]⟩
        · intro hf
          cases hrf : (stepLine title st l).1.foundSession with
          | some tok =>
            obtain ⟨c3, c4⟩ := i2 (by rw [hrf]; rfl)
            have c1 := s3 hf
            rw [hrf] at c1
            simp only [List.countP_append, c3, c1, c4, hrf]
            simp
          | none =>
            have c1 := s3 hf
            rw [hrf] at c1
            simp only [List.countP_append, c1, i3 hrf]
            simp
        · intro hfin
          obtain ⟨d1, d2⟩ := i5 hfin
          refine ⟨by simp [List.countP_append, sc0, d1], ?_⟩
          intro hnone
          rw [hspec]
          exact d2 hnone
        · intro hfin
          obtain ⟨d1, pre, c, d2, d3, d4, d5⟩ := i6 hfin
          refine ⟨d1, (stepLine title st l).2.1 ++ pre, c, ?_, ?_, ?_, ?_⟩
          · rw [d2, List.append_assoc]
          · simp [List.countP_append, sc0, d3]
          · rw [d4, hspec]
          · rw [d5, specFirstTerminalOk, if_neg (by simp [hterm])]

theorem runEpilogue_spec (st : RunState) (rc : Int) (stderr : List String)
    (h : st.didEmitCompleted = false) :
    ∃ pre c, runEpilogue st rc stderr = pre ++ [TakopiEvent.completed c] ∧
      pre.countP isCompletedEvt = 0 ∧ pre.countP isStartedEvt = 0 ∧
      c.answer = st.finalAnswer.getD "" ∧
      (c.ok = true ↔ rc = 0 ∧ st.foundSession.isSome = true) := by
  unfold runEpilogue
  rw [if_neg (by simp [h])]
  split
  next hrc =>
    refine ⟨[_], _, rfl, rfl, rfl, rfl, ?_⟩
    have hne : rc ≠ 0 := by simpa using hrc
    simp [completedEvent, hne]
  next hrc =>
    have h0 : rc = 0 := by simpa using hrc
    split
    next hfound =>
      refine ⟨[], _, rfl, rfl, rfl, rfl, ?_⟩
      simp [completedEvent, Option.isNone_iff_eq_none.mp hfound]
    next hfound =>
      refine ⟨[], _, rfl, rfl, rfl, rfl, ?_⟩
      simp only [completedEvent, h0]
      cases hF : st.foundSession with
      | some tok => simp
      | none => exact absurd (by rw [hF]; rfl) hfound

theorem runLoop_finished_last (resume : Option ResumeToken) (title : String)
    (lines : List StdoutLine) (rc : Int) (stderr : List String)
    (h : (runLoop resume title lines rc stderr).outcome = RunOutcome.finished) :
    ∃ c, (runLoop resume title lines rc stderr).events.getLast? =
        some (TakopiEvent.completed c) ∧
      (runLoop resume title lines rc stderr).events.countP isCompletedEvt = 1 ∧
      (runLoop resume title lines rc stderr).events.countP isStartedEvt ≤ 1 ∧
      c.answer = specLatestAnswer lines ∧
      (c.ok = true ↔
        ((runLoop resume title lines rc stderr).state.didEmitCompleted = true ∧
          specFirstTerminalOk lines = true) ∨
        ((runLoop resume title lines rc stderr).state.didEmitCompleted = false ∧
          rc = 0 ∧
          (runLoop resume title lines rc stderr).state.foundSession.isSome = true)) := by
  obtain ⟨l1, l2, l3, l4, l5, l6⟩ :=
    loopLines_spec title lines { expectedSession := resume } rfl
  cases hexn : (loopLines title { expectedSession := resume } lines).2.2 with
  | some m =>
    have hout : (runLoop resume title lines rc stderr).outcome = .raised m := by
      simp only [runLoop, hexn]
    rw [hout] at h
    exact absurd h (by simp)
  | none =>
    have hev : (runLoop resume title lines rc stderr).events =
        (loopLines title { expectedSession := resume } lines).2.1 ++
          runEpilogue (loopLines title { expectedSession := resume } lines).1 rc stderr := by
      simp only [runLoop, hexn]
    have hst : (runLoop resume title lines rc stderr).state =
        (loopLines title { expectedSession := resume } lines).1 := by
      simp only [runLoop, hexn]
    rw [hev, hst]
    cases hde : (loopLines title { expectedSession := resume } lines).1.didEmitCompleted with
    | true =>
      obtain ⟨-, pre, c, hes, hpc, hca, hok⟩ := l6 hde
      have hepi : runEpilogue (loopLines title { expectedSession := resume } lines).1
          rc stderr = [] := by
        unfold runEpilogue
        rw [if_pos hde]
      rw [hepi, List.append_nil, hes]
      refine ⟨c, by simp, ?_, ?_, hca, ?_⟩
      · simp [List.countP_append, hpc, isCompletedEvt]
      · rw [← hes, l3 rfl]
        split <;> omega
      · rw [hok]
        simp [hde]
    | false =>
      obtain ⟨hc0, hans⟩ := l5 hde
      obtain ⟨pre, c, hes, hpc, hps, hca, hok⟩ :=
        runEpilogue_spec (loopLines title { expectedSession := resume } lines).1 rc stderr hde
      rw [hes, ← List.append_assoc]
      refine ⟨c, by simp, ?_, ?_, ?_, ?_⟩
      · simp [List.countP_append, hc0, hpc, isCompletedEvt]
      · have hcs := l3 rfl
        simp only [List.countP_append, hps, List.countP_cons, isStartedEvt, hcs]
        split <;> simp
      · rw [hca, ← hans hexn]
        rfl
      · rw [hok]
        simp [hde]

theorem runLoop_raised_no_completed (resume : Option ResumeToken) (title : String)
    (lines : List StdoutLine) (rc : Int) (stderr : List String) (m : String)
    (h : (runLoop resume title lines rc stderr).outcome = RunOutcome.raised m) :
    (runLoop resume title lines rc stderr).events.countP isCompletedEvt = 0 := by
  obtain ⟨l1, l2, l3, l4, l5, l6⟩ :=
    loopLines_spec title lines { expectedSession := resume } rfl
  cases hexn : (loopLines title { expectedSession := resume } lines).2.2 with
  | none =>
    have hout : (runLoop resume title lines rc stderr).outcome = .finished := by
      simp only [runLoop, hexn]
    rw [hout] at h
    exact absurd h (by simp)
  | some m2 =>
    have hev : (runLoop resume title lines rc stderr).events =
        (loopLines title { expectedSession := resume } lines).2.1 := by
      simp only [runLoop, hexn]
    rw [hev]
    exact (l5 (l4 (by rw [hexn]; rfl))).1

theorem PyVal.eqStr_iff {v : PyVal} {s : String} : v.eqStr s = true ↔ v = .str s := by
  cases v <;> simp [PyVal.eqStr]

/-- A stdout line that is valid JSON but whose top-level value is not an
object: `json.loads("42")` succeeds and `evt.get("type")` then raises
`AttributeError` (codex.py line 613). -/
def c1CrashLines : List StdoutLine := [.json (.int 42)]

/-- C1 counterexample: the single stdout line `42` is within the claim's
scope (it is neither a session-identity mismatch nor a cancellation), yet
`_run` raises `AttributeError` at `evt.get("type")` and the run delivers no
`CompletedEvent` at all — the claimed "exactly one `CompletedEvent`" fails. -/
theorem nonobject_line_aborts_counterexample :
    (runLoop Option.none "Codex" c1CrashLines 0 []).outcome =
      RunOutcome.raised "AttributeError: JSON line is not an object" ∧
    (runLoop Option.none "Codex" c1CrashLines 0 []).events.countP isCompletedEvt = 0 := by
  decide

/-- C1 (amended): for every sequence of stdout lines processed by one run of
`CodexRunner._run` whose generator finishes without raising (which
additionally excludes the unguarded type-error aborts: non-object JSON
lines, a `turn.failed` with a truthy non-object `error`, item records with a
truthy non-object `item`, and type errors inside item translation;
cancellation is outside the embedding), the emitted stream contains at most
one `StartedEvent` and exactly one `CompletedEvent`, and the
`CompletedEvent` is the last event emitted — no event follows it. -/
theorem run_event_discipline (resume : Option ResumeToken) (title : String)
    (lines : List StdoutLine) (rc : Int) (stderr : List String)
    (h : (runLoop resume title lines rc stderr).outcome = RunOutcome.finished) :
    (runLoop resume title lines rc stderr).events.countP isCompletedEvt = 1 ∧
    (runLoop resume title lines rc stderr).events.countP isStartedEvt ≤ 1 ∧
    ∃ c, (runLoop resume title lines rc stderr).events.getLast? =
      some (TakopiEvent.completed c) := by
  obtain ⟨c, h1, h2, h3, -, -⟩ := runLoop_finished_last resume title lines rc stderr h
  exact ⟨h2, h3, c, h1⟩

/-- A concrete successful run: session announced, then `turn.completed`. -/
def c1Lines : List StdoutLine :=
  [.json (.dict [("type", .str "thread.started"), ("thread_id", .str "T1")]),
   .json (.dict [("type", .str "turn.completed")])]

/-- Witness for C1 on a concrete successful run. -/
theorem run_event_discipline_witness :
    (runLoop Option.none "Codex" c1Lines 0 []).outcome = RunOutcome.finished ∧
    ((runLoop Option.none "Codex" c1Lines 0 []).events.countP isCompletedEvt = 1 ∧
     (runLoop Option.none "Codex" c1Lines 0 []).events.countP isStartedEvt ≤ 1 ∧
     ∃ c, (runLoop Option.none "Codex" c1Lines 0 []).events.getLast? =
       some (TakopiEvent.completed c)) :=
  ⟨by decide, run_event_discipline Option.none "Codex" c1Lines 0 [] (by decide)⟩

/-- C2 counterexample: resuming session `A` while the process announces
thread id `B` makes `_run` raise `RuntimeError` — the caller gets an
exception, not a `CompletedEvent{ok:false}`; no `CompletedEvent` at all is
delivered for this fatal condition. -/
theorem session_mismatch_raise_counterexample :
    (runLoop (some { engine := "codex", value := "A" }) "Codex"
      [StdoutLine.json (.dict [("type", .str "thread.started"), ("thread_id", .str "B")])]
      0 []).outcome =
      RunOutcome.raised "codex emitted a different session id than expected" ∧
    (runLoop (some { engine := "codex", value := "A" }) "Codex"
      [StdoutLine.json (.dict [("type", .str "thread.started"), ("thread_id", .str "B")])]
      0 []).events.countP isCompletedEvt = 0 := by decide

/-- C2 (amended): a run delivers exactly one `CompletedEvent` iff its
generator finishes without raising, and that event is then last, with
`ok = true` exactly when the run actually succeeded (a `turn.completed`
record was the first terminal record, or the stream ended with exit code 0
and a captured session) — so every fatal condition reported by a well-typed
protocol record yields `ok = false`; when the generator raises instead — the
`RuntimeError` of a session-identity violation, or the `AttributeError` /
`TypeError` of an ill-typed line (non-object JSON value, `turn.failed` with
a truthy non-object `error`, item records with a truthy non-object `item`,
type errors inside item translation) — no `CompletedEvent` is delivered at
all and the exception propagates to the caller in place of a terminal
event. -/
theorem run_terminal_unless_raise (resume : Option ResumeToken) (title : String)
    (lines : List StdoutLine) (rc : Int) (stderr : List String) :
    (runLoop resume title lines rc stderr).events.countP isCompletedEvt =
      (if (runLoop resume title lines rc stderr).outcome = RunOutcome.finished
       then 1 else 0) ∧
    ((runLoop resume title lines rc stderr).outcome = RunOutcome.finished →
      ∃ c, (runLoop resume title lines rc stderr).events.getLast? =
          some (TakopiEvent.completed c) ∧
        (c.ok = true ↔
          ((runLoop resume title lines rc stderr).state.didEmitCompleted = true ∧
            specFirstTerminalOk lines = true) ∨
          ((runLoop resume title lines rc stderr).state.didEmitCompleted = false ∧
            rc = 0 ∧
            (runLoop resume title lines rc stderr).state.foundSession.isSome = true))) := by
  constructor
  · cases ho : (runLoop resume title lines rc stderr).outcome with
    | finished =>
      rw [if_pos rfl]
      exact (runLoop_finished_last resume title lines rc stderr ho).choose_spec.2.1
    | raised m =>
      rw [if_neg (by simp)]
      exact runLoop_raised_no_completed resume title lines rc stderr m ho
  · intro h
    obtain ⟨c, h1, -, -, -, hok⟩ := runLoop_finished_last resume title lines rc stderr h
    exact ⟨c, h1, hok⟩

/-- A fatal `error` record: the run fails with a terminal event. -/
def c2Lines : List StdoutLine :=
  [.json (.dict [("type", .str "thread.started"), ("thread_id", .str "T1")]),
   .json (.dict [("type", .str "error"), ("message", .str "kaput"), ("fatal", .bool true)])]

/-- Witness for C2 (amended) on a fatal error record: the terminal event
exists and its `ok` is false. -/
theorem run_terminal_unless_raise_witness :
    ((runLoop Option.none "Codex" c2Lines 0 []).outcome = RunOutcome.finished ∧
      specFirstTerminalOk c2Lines = false) ∧
    ∃ c, (runLoop Option.none "Codex" c2Lines 0 []).events.getLast? =
        some (TakopiEvent.completed c) ∧
      (c.ok = true ↔
        ((runLoop Option.none "Codex" c2Lines 0 []).state.didEmitCompleted = true ∧
          specFirstTerminalOk c2Lines = true) ∨
        ((runLoop Option.none "Codex" c2Lines 0 []).state.didEmitCompleted = false ∧
          (0 : Int) = 0 ∧
          (runLoop Option.none "Codex" c2Lines 0 []).state.foundSession.isSome = true)) :=
  ⟨⟨by decide, by decide⟩,
   (run_terminal_unless_raise Option.none "Codex" c2Lines 0 []).2 (by decide)⟩

/-- C3 counterexample: on exit code 137 with stderr tail `"boom\n"` and no
terminal record, the synthesized `CompletedEvent.error` is exactly
`"codex exec failed (rc=137)."` — it does not contain the stderr tail. -/
theorem stderr_tail_not_in_error_counterexample :
    (match (runLoop Option.none "Codex" [] 137 ["boom\n"]).events.getLast? with
     | some (TakopiEvent.completed c) => c.error
     | _ => Option.none) = some "codex exec failed (rc=137)." ∧
    strIsInfixOf "boom" "codex exec failed (rc=137)." = false := by decide

/-- C3 (amended): in every run whose generator finishes (no line made `_run`
raise), a nonzero exit with no terminal record observed synthesizes a
failing `CompletedEvent` whose `error` is `"codex exec failed (rc=<rc>)."`;
the captured stderr tail (the last up to 200 stderr lines) is carried in
the `stderr_tail` detail of the warning note emitted immediately before
that `CompletedEvent`, not in its `error` field.  (A run aborted by a raise
— session mismatch or a type-error line — never reaches this epilogue and
synthesizes nothing.) -/
theorem nonzero_exit_synthesizes_failure (resume : Option ResumeToken) (title : String)
    (lines : List StdoutLine) (rc : Int) (stderr : List String)
    (h1 : (runLoop resume title lines rc stderr).outcome = RunOutcome.finished)
    (h2 : (runLoop resume title lines rc stderr).state.didEmitCompleted = false)
    (h3 : rc ≠ 0) :
    ∃ pre note c,
      (runLoop resume title lines rc stderr).events =
        pre ++ [TakopiEvent.action note, TakopiEvent.completed c] ∧
      c.ok = false ∧
      c.error = some ("codex exec failed (rc=" ++ toString rc ++ ").") ∧
      note.message = some ("codex exec failed (rc=" ++ toString rc ++ ").") ∧
      note.level = some "warning" ∧
      note.action.detail = PyVal.dict [("stderr_tail",
        PyVal.str (String.join (stderr.drop (stderr.length - STDERR_TAIL_LINES))))] := by
  cases hexn : (loopLines title { expectedSession := resume } lines).2.2 with
  | some m =>
    have hout : (runLoop resume title lines rc stderr).outcome = .raised m := by
      simp only [runLoop, hexn]
    rw [hout] at h1
    exact absurd h1 (by simp)
  | none =>
    have hev : (runLoop resume title lines rc stderr).events =
        (loopLines title { expectedSession := resume } lines).2.1 ++
          runEpilogue (loopLines title { expectedSession := resume } lines).1 rc stderr := by
      simp only [runLoop, hexn]
    have hst : (runLoop resume title lines rc stderr).state =
        (loopLines title { expectedSession := resume } lines).1 := by
      simp only [runLoop, hexn]
    rw [hst] at h2
    have hepi : runEpilogue (loopLines title { expectedSession := resume } lines).1
        rc stderr =
        [noteCompleted (nextNoteId
            ((loopLines title { expectedSession := resume } lines).1.noteSeq + 1))
          ("codex exec failed (rc=" ++ toString rc ++ ").") false
          (.dict [("stderr_tail", .str (String.join
            (stderr.drop (stderr.length - STDERR_TAIL_LINES))))]),
         completedEvent
          ((loopLines title { expectedSession := resume } lines).1.foundSession.or
            (loopLines title { expectedSession := resume } lines).1.expectedSession)
          false
          ((loopLines title { expectedSession := resume } lines).1.finalAnswer.getD "")
          (some ("codex exec failed (rc=" ++ toString rc ++ ").")) .none] := by
      unfold runEpilogue
      rw [if_neg (by simp [h2]), if_pos (by simpa using h3)]
    rw [hev, hepi]
    exact ⟨_, _, _, rfl, rfl, rfl, rfl, rfl, rfl⟩

/-- Witness for C3 (amended) at exit code 137 with stderr `"boom\n"`. -/
theorem nonzero_exit_synthesizes_failure_witness :
    ((runLoop Option.none "Codex" [] 137 ["boom\n"]).outcome = RunOutcome.finished ∧
     (runLoop Option.none "Codex" [] 137 ["boom\n"]).state.didEmitCompleted = false ∧
     (137 : Int) ≠ 0) ∧
    ∃ pre note c,
      (runLoop Option.none "Codex" [] 137 ["boom\n"]).events =
        pre ++ [TakopiEvent.action note, TakopiEvent.completed c] ∧
      c.ok = false ∧
      c.error = some ("codex exec failed (rc=" ++ toString (137 : Int) ++ ").") ∧
      note.message = some ("codex exec failed (rc=" ++ toString (137 : Int) ++ ").") ∧
      note.level = some "warning" ∧
      note.action.detail = PyVal.dict [("stderr_tail",
        PyVal.str (String.join ((["boom\n"] : List String).drop
          ((["boom\n"] : List String).length - STDERR_TAIL_LINES))))] :=
  ⟨⟨by decide, by decide, by decide⟩,
   nonzero_exit_synthesizes_failure Option.none "Codex" [] 137 ["boom\n"]
     (by decide) (by decide) (by decide)⟩

/-- C5: an agent-message item is never turned into an `ActionEvent`
(`_translate_item_event` drops it before any of its crash points); whenever
the run's generator finishes, the final `CompletedEvent.answer` equals the
text of the latest `agent_message`/`assistant_message` `item.completed`
record seen before the run ends (empty string if none) — later records
overwrite earlier ones, texts are never concatenated; and a run whose
generator raises delivers no `CompletedEvent`, so the answer clause covers
exactly the runs that deliver one. -/
theorem answer_is_latest_agent_message (resume : Option ResumeToken) (title : String)
    (lines : List StdoutLine) (rc : Int) (stderr : List String) :
    (∀ (etype : String) (item : PyVal),
       ((pyOr (item.get "type") (item.get "item_type")).eqStr "agent_message" = true ∨
        (pyOr (item.get "type") (item.get "item_type")).eqStr "assistant_message" = true) →
       translateItemEvent etype item = .ok []) ∧
    ((runLoop resume title lines rc stderr).outcome = RunOutcome.finished →
      ∃ c, (runLoop resume title lines rc stderr).events.getLast? =
          some (TakopiEvent.completed c) ∧
        c.answer = specLatestAnswer lines) ∧
    (∀ m, (runLoop resume title lines rc stderr).outcome = RunOutcome.raised m →
      (runLoop resume title lines rc stderr).events.countP isCompletedEvt = 0) := by
  refine ⟨?_, ?_, ?_⟩
  · intro etype item hag
    have hd : item.isDict = true := by
      cases item with
      | dict fs => rfl
      | none => simp [PyVal.get, pyOr, PyVal.eqStr, PyVal.truthy] at hag
      | bool b => simp [PyVal.get, pyOr, PyVal.eqStr, PyVal.truthy] at hag
      | int n => simp [PyVal.get, pyOr, PyVal.eqStr, PyVal.truthy] at hag
      | str s => simp [PyVal.get, pyOr, PyVal.eqStr, PyVal.truthy] at hag
      | list xs => simp [PyVal.get, pyOr, PyVal.eqStr, PyVal.truthy] at hag
    have ht : (if (pyOr (item.get "type") (item.get "item_type")).eqStr
          "assistant_message" = true
        then PyVal.str "agent_message"
        else pyOr (item.get "type") (item.get "item_type")) = PyVal.str "agent_message" := by
      rcases hag with h1 | h1
      · rw [if_neg (by simp [PyVal.eqStr_unique "assistant_message" h1 (by decide)])]
        exact PyVal.eqStr_iff.mp h1
      · rw [if_pos h1]
    unfold translateItemEvent
    simp only [hd, Bool.not_true, Bool.false_eq_true, if_false]
    rw [ht]
    rfl
  · intro h
    obtain ⟨c, h1, -, -, h4, -⟩ := runLoop_finished_last resume title lines rc stderr h
    exact ⟨c, h1, h4⟩
  · intro m hm
    exact runLoop_raised_no_completed resume title lines rc stderr m hm

/-- Two agent messages before the terminal record: the last one wins. -/
def c5Lines : List StdoutLine :=
  [.json (.dict [("type", .str "thread.started"), ("thread_id", .str "T1")]),
   .json (.dict [("type", .str "item.completed"),
     ("item", .dict [("id", .str "item_1"), ("type", .str "agent_message"),
                     ("text", .str "first")])]),
   .json (.dict [("type", .str "item.completed"),
     ("item", .dict [("id", .str "item_2"), ("type", .str "assistant_message"),
                     ("text", .str "second")])]),
   .json (.dict [("type", .str "turn.completed")])]

/-- Witness for C5: on a concrete finishing run the latest agent message is
reported. -/
theorem answer_is_latest_agent_message_witness :
    ((runLoop Option.none "Codex" c5Lines 0 []).outcome = RunOutcome.finished ∧
      specLatestAnswer c5Lines = "second") ∧
    ∃ c, (runLoop Option.none "Codex" c5Lines 0 []).events.getLast? =
        some (TakopiEvent.completed c) ∧
      c.answer = specLatestAnswer c5Lines :=
  ⟨⟨by decide, by decide⟩,
   (answer_is_latest_agent_message Option.none "Codex" c5Lines 0 []).2.1 (by decide)⟩

/-- C10: `CodexRunner.run` rejects a resume token for a foreign engine with
a `RuntimeError` raised before touching the lock registry (key set returned
unchanged) and before any spawn or event (`raisedEarly` carries neither). -/
theorem run_rejects_foreign_engine (locks : List String) (prompt : String)
    (token : ResumeToken) (title : String) (lines : List StdoutLine) (rc : Int)
    (stderr : List String) (h : token.engine ≠ "codex") :
    CodexRunner.run locks prompt (some token) title lines rc stderr =
      (RunTopResult.raisedEarly ("resume token is for engine \x27" ++ token.engine ++
        "\x27, not \x27" ++ ENGINE ++ "\x27"), locks) := by
  unfold CodexRunner.run
  dsimp only
  rw [if_pos (by simpa [ENGINE] using h)]

/-- Witness for C10 with a `claude`-engine token. -/
theorem run_rejects_foreign_engine_witness :
    (("claude" : String) ≠ "codex") ∧
    CodexRunner.run [] "p" (some { engine := "claude", value := "x" }) "Codex" [] 0 [] =
      (RunTopResult.raisedEarly ("resume token is for engine \x27claude\x27, not \x27" ++
        ENGINE ++ "\x27"), []) :=
  ⟨by decide,
   run_rejects_foreign_engine [] "p" { engine := "claude", value := "x" } "Codex" [] 0 []
     (by decide)⟩

end Takopi

/-!
## Session lock discipline (`CodexRunner.run` / `_lock_for`, codex.py 514–537)

Concurrency is embedded as a small interleaving machine over two runs.  Each
run's control skeleton is read off `run`/`_run`: a resuming run takes the
session lock keyed by `f"{token.engine}:{token.value}"` (`_lock_for`), then
spawns its process inside `manage_subprocess`, then either yields its
terminal event or aborts with an exception escaping `_run` (e.g. the
session-identity-mismatch `RuntimeError`), and releases the lock when the
`async with lock` block exits — `async with` runs its exit handler on
*both* the normal and the exception exit, so an aborting run releases the
lock without ever having produced a terminal event; a non-resuming run
spawns first and acquires a lock only at its `StartedEvent`, once the
session identity is known.  The scheduler interleaves the two runs
arbitrarily; an `acquire` is enabled only while no run holds that key
(`anyio.Lock` semantics).
-/

namespace SessionLock

inductive Instr where
  | acquire (key : String)
  | spawn
  | terminal
  | raiseExc
  | release (key : String)
deriving DecidableEq

/-- Control skeleton of a resuming `CodexRunner.run` (codex.py 534–537):
`_lock_for` + `async with lock` wrapping `_run`, which spawns and then
either ends with the terminal event (`ab = false`) or aborts with an
exception (`ab = true`, e.g. the session-mismatch `RuntimeError`); in both
cases the `async with` block exit releases the lock. -/
def resumeProgram (key : String) (ab : Bool) : List Instr :=
  [.acquire key, .spawn, if ab then .raiseExc else .terminal, .release key]

/-- Control skeleton of a non-resuming run: `_run` spawns immediately; the
lock of the newly announced session is acquired mid-run at the
`StartedEvent` (codex.py 712–715) and released in the `finally`
(codex.py 762–764). -/
def freshProgram (key : String) : List Instr :=
  [.spawn, .acquire key, .terminal, .release key]

structure MState where
  pc : Fin 2 → Nat
  owner : String → Option (Fin 2)

def initState : MState := { pc := fun _ => 0, owner := fun _ => Option.none }

/-- `anyio.Lock.acquire` blocks while the lock is held. -/
def instrEnabled (s : MState) : Instr → Bool
  | .acquire key => (s.owner key).isNone
  | _ => true

def bumpPc (s : MState) (i : Fin 2) : Fin 2 → Nat :=
  fun j => if j = i then s.pc j + 1 else s.pc j

def applyInstr (s : MState) (i : Fin 2) : Instr → MState
  | .acquire key =>
    { pc := bumpPc s i, owner := fun k => if k = key then some i else s.owner k }
  | .release key =>
    { pc := bumpPc s i, owner := fun k => if k = key then Option.none else s.owner k }
  | _ => { s with pc := bumpPc s i }

/-- One interleaving step: run `i` executes its next instruction when that
instruction is enabled. -/
inductive Step (progs : Fin 2 → List Instr) : MState → Fin 2 × Instr → MState → Prop where
  | mk (s : MState) (i : Fin 2) (instr : Instr) :
      (progs i)[s.pc i]? = some instr →
      instrEnabled s instr = true →
      Step progs s (i, instr) (applyInstr s i instr)

/-- Reachable traces, grown by appending one event at a time. -/
inductive Trace (progs : Fin 2 → List Instr) : List (Fin 2 × Instr) → MState → Prop where
  | nil : Trace progs [] initState
  | snoc {evs s e s2} : Trace progs evs s → Step progs s e s2 → Trace progs (evs ++ [e]) s2

/-- How many events of run `i` a trace contains. -/
def countIn (i : Fin 2) (evs : List (Fin 2 × Instr)) : Nat :=
  evs.countP (fun e => e.1 == i)

theorem resumeProgram_get (key : String) (ab : Bool) (n : Nat) (instr : Instr)
    (h : (resumeProgram key ab)[n]? = some instr) :
    (instr = .acquire key ∧ n = 0) ∨ (instr = .spawn ∧ n = 1) ∨
    (instr = (if ab then .raiseExc else .terminal) ∧ n = 2) ∨
    (instr = .release key ∧ n = 3) := by
  match n with
  | 0 => simp [resumeProgram] at h; simp [h]
  | 1 => simp [resumeProgram] at h; simp [h]
  | 2 => simp [resumeProgram] at h; simp [h]
  | 3 => simp [resumeProgram] at h; simp [h]
  | n + 4 => simp [resumeProgram] at h

theorem countIn_append (i : Fin 2) (evs : List (Fin 2 × Instr)) (e : Fin 2 × Instr) :
    countIn i (evs ++ [e]) = countIn i evs + (if e.1 = i then 1 else 0) := by
  unfold countIn
  rw [List.countP_append]
  simp only [List.countP_cons, List.countP_nil]
  split
  next hp => simp [show e.1 = i from by simpa using hp]
  next hp => simp [show ¬ e.1 = i from by simpa using hp]

theorem countP_nth {α} (p : α → Bool) (l : List α) (n : Nat) (h : n < l.countP p) :
    ∃ r, r < l.length ∧ ∃ a, l[r]? = some a ∧ p a = true ∧ (l.take r).countP p = n := by
  induction l generalizing n with
  | nil => simp at h
  | cons x xs ih =>
    by_cases hp : p x = true
    · cases n with
      | zero => exact ⟨0, by simp, x, by simp, hp, by simp⟩
      | succ n =>
        have h2 : n < xs.countP p := by
          simp [List.countP_cons, hp] at h
          omega
        obtain ⟨r, hr, a, ha, hpa, hc⟩ := ih n h2
        refine ⟨r + 1, by simpa using hr, a, by simpa using ha, hpa, ?_⟩
        simp [List.countP_cons, hp, hc]
    · have h2 : n < xs.countP p := by
        simpa [List.countP_cons, hp] using h
      obtain ⟨r, hr, a, ha, hpa, hc⟩ := ih n h2
      refine ⟨r + 1, by simpa using hr, a, by simpa using ha, hpa, ?_⟩
      simp [List.countP_cons, hp, hc]

theorem countP_take_mono {α} (p : α → Bool) (l : List α) {a b : Nat} (h : a ≤ b) :
    (l.take a).countP p ≤ (l.take b).countP p :=
  List.Sublist.countP_le p (List.take_prefix_take_left l h).sublist

theorem countP_pos_of_getElem {α} (p : α → Bool) (l : List α) {r m : Nat} {a : α}
    (h : l[r]? = some a) (hp : p a = true) (hrm : r < m) :
    (l.take r).countP p + 1 ≤ (l.take m).countP p := by
  have h1 : (l.take (r + 1)).countP p = (l.take r).countP p + 1 := by
    rw [List.take_succ, h]
    simp [List.countP_append, hp]
  calc (l.take r).countP p + 1 = (l.take (r + 1)).countP p := h1.symm
    _ ≤ (l.take m).countP p := countP_take_mono p l hrm

/-- The reachability invariant for two resuming runs with session keys
`key 0`, `key 1` (equal or distinct) and abort flags `ab 0`, `ab 1`:
program counters count the run's events, the lock owner is exactly the run
inside its critical section (acquired, not yet released), trace events
follow each run's program in order, and every acquire event happened while
the other same-key run had made either no progress or finished. -/
structure Inv (key : Fin 2 → String) (ab : Fin 2 → Bool) (evs : List (Fin 2 × Instr))
    (s : MState) : Prop where
  pc_count : ∀ i, s.pc i = countIn i evs
  pc_le : ∀ i, s.pc i ≤ 4
  owner_char : ∀ k j, s.owner k = some j ↔ (k = key j ∧ 1 ≤ s.pc j ∧ s.pc j ≤ 3)
  consistent : ∀ r e, evs[r]? = some e →
      (resumeProgram (key e.1) (ab e.1))[countIn e.1 (evs.take r)]? = some e.2
  acq_hist : ∀ r (i j : Fin 2), i ≠ j → evs[r]? = some (j, .acquire (key j)) →
      key i = key j → countIn i (evs.take r) = 0 ∨ countIn i (evs.take r) = 4

theorem applyInstr_pc (s : MState) (i : Fin 2) (instr : Instr) (j : Fin 2) :
    (applyInstr s i instr).pc j = if j = i then s.pc j + 1 else s.pc j := by
  cases instr <;> rfl

theorem trace_inv (key : Fin 2 → String) (ab : Fin 2 → Bool) :
    ∀ evs s, Trace (fun i => resumeProgram (key i) (ab i)) evs s → Inv key ab evs s := by
  intro evs s htr
  induction htr with
  | nil =>
    refine ⟨fun i => rfl, fun i => Nat.zero_le 4, ?_, ?_, ?_⟩
    · intro k j
      simp [initState]
    · intro r e hr
      simp at hr
    · intro r a b hab hr hk
      simp at hr
  | snoc htr hstep ih =>
    rename_i evs s e s2
    cases hstep with
    | mk i instr hget hen =>
    simp only [] at hget
    have hlt : s.pc i < 4 := by
      have h4 := (List.getElem?_eq_some.mp hget).1
      simpa [resumeProgram] using h4
    have hpc : ∀ j, (applyInstr s i instr).pc j = countIn j (evs ++ [(i, instr)]) := by
      intro j
      rw [applyInstr_pc, countIn_append, ← ih.pc_count j]
      by_cases hj : j = i
      · subst hj
        simp
      · simp [hj, Ne.symm hj]
    have hle : ∀ j, (applyInstr s i instr).pc j ≤ 4 := by
      intro j
      rw [applyInstr_pc]
      by_cases hj : j = i
      · subst hj
        rw [if_pos rfl]
        omega
      · rw [if_neg hj]
        exact ih.pc_le j
    have hcons : ∀ r e, (evs ++ [(i, instr)])[r]? = some e →
        (resumeProgram (key e.1) (ab e.1))[countIn e.1 ((evs ++ [(i, instr)]).take r)]? =
          some e.2 := by
      intro r e hr
      rcases Nat.lt_trichotomy r evs.length with h1 | h1 | h1
      · rw [List.getElem?_append_left h1] at hr
        rw [List.take_append_of_le_length (Nat.le_of_lt h1)]
        exact ih.consistent r e hr
      · subst h1
        rw [List.getElem?_concat_length] at hr
        obtain rfl := Option.some.inj hr
        rw [List.take_append_of_le_length (Nat.le_refl _), List.take_length, ← ih.pc_count i]
        exact hget
      · rw [List.getElem?_eq_none (by simp; omega)] at hr
        exact absurd hr (by simp)
    have hacq : ∀ r (a b : Fin 2), a ≠ b →
        (evs ++ [(i, instr)])[r]? = some (b, .acquire (key b)) →
        key a = key b →
        countIn a ((evs ++ [(i, instr)]).take r) = 0 ∨
        countIn a ((evs ++ [(i, instr)]).take r) = 4 := by
      intro r a b hab hr hk
      rcases Nat.lt_trichotomy r evs.length with h1 | h1 | h1
      · rw [List.getElem?_append_left h1] at hr
        rw [List.take_append_of_le_length (Nat.le_of_lt h1)]
        exact ih.acq_hist r a b hab hr hk
      · subst h1
        rw [List.getElem?_concat_length] at hr
        have heq := Option.some.inj hr
        have hfst : i = b := congrArg Prod.fst heq
        subst hfst
        have hsnd : instr = Instr.acquire (key i) := congrArg Prod.snd heq
        subst hsnd
        rw [List.take_append_of_le_length (Nat.le_refl _), List.take_length]
        have hnone : s.owner (key i) = Option.none := by
          simpa [instrEnabled, Option.isNone_iff_eq_none] using hen
        have hncrit : ¬ (1 ≤ s.pc a ∧ s.pc a ≤ 3) := by
          intro hc
          have hown := (ih.owner_char (key a) a).mpr ⟨rfl, hc⟩
          rw [hk, hnone] at hown
          exact absurd hown (by simp)
        have hbound := ih.pc_le a
        rw [← ih.pc_count a]
        omega
      · rw [List.getElem?_eq_none (by simp; omega)] at hr
        exact absurd hr (by simp)
    refine ⟨hpc, hle, ?_, hcons, hacq⟩
    rcases resumeProgram_get (key i) (ab i) (s.pc i) instr hget with
      ⟨rfl, hn⟩ | ⟨rfl, hn⟩ | ⟨rfl, hn⟩ | ⟨rfl, hn⟩
    · intro k j
      have hnone : s.owner (key i) = Option.none := by
        simpa [instrEnabled, Option.isNone_iff_eq_none] using hen
      constructor
      · intro hown
        rw [show (applyInstr s i (.acquire (key i))).owner k =
            (if k = key i then some i else s.owner k) from rfl] at hown
        by_cases hkk : k = key i
        · rw [if_pos hkk] at hown
          obtain rfl := Option.some.inj hown
          refine ⟨hkk, ?_⟩
          rw [applyInstr_pc, if_pos rfl, hn]
          omega
        · rw [if_neg hkk] at hown
          have hc := (ih.owner_char k j).mp hown
          refine ⟨hc.1, ?_⟩
          rw [applyInstr_pc]
          by_cases hji : j = i
          · subst hji
            exact absurd hc.1 hkk
          · rw [if_neg hji]
            exact hc.2
      · rintro ⟨hkk, hcrit⟩
        rw [applyInstr_pc] at hcrit
        rw [show (applyInstr s i (.acquire (key i))).owner k =
            (if k = key i then some i else s.owner k) from rfl]
        by_cases hji : j = i
        · subst hji
          rw [if_pos hkk]
        · rw [if_neg hji] at hcrit
          have hown := (ih.owner_char k j).mpr ⟨hkk, hcrit⟩
          by_cases hkki : k = key i
          · rw [hkki, hnone] at hown
            exact absurd hown (by simp)
          · rw [if_neg hkki]
            exact hown
    · intro k j
      rw [show (applyInstr s i .spawn).owner k = s.owner k from rfl]
      rw [ih.owner_char k j, applyInstr_pc]
      by_cases hji : j = i
      · subst hji
        rw [if_pos rfl, hn]
        constructor
        · rintro ⟨h1, -⟩
          exact ⟨h1, by omega⟩
        · rintro ⟨h1, -⟩
          exact ⟨h1, by omega⟩
      · rw [if_neg hji]
    · intro k j
      rw [show (applyInstr s i (if ab i then Instr.raiseExc else Instr.terminal)).owner k =
          s.owner k from by cases ab i <;> rfl]
      rw [ih.owner_char k j, applyInstr_pc]
      by_cases hji : j = i
      · subst hji
        rw [if_pos rfl, hn]
        constructor
        · rintro ⟨h1, -⟩
          exact ⟨h1, by omega⟩
        · rintro ⟨h1, -⟩
          exact ⟨h1, by omega⟩
      · rw [if_neg hji]
    · intro k j
      rw [show (applyInstr s i (.release (key i))).owner k =
          (if k = key i then Option.none else s.owner k) from rfl]
      rw [applyInstr_pc]
      have howni : s.owner (key i) = some i :=
        (ih.owner_char (key i) i).mpr ⟨rfl, by rw [hn]; omega⟩
      by_cases hkk : k = key i
      · rw [if_pos hkk]
        constructor
        · intro hcontra
          exact absurd hcontra (by simp)
        · rintro ⟨hkj, hcrit⟩
          by_cases hji : j = i
          · subst hji
            rw [if_pos rfl, hn] at hcrit
            omega
          · rw [if_neg hji] at hcrit
            have hown := (ih.owner_char k j).mpr ⟨hkj, hcrit⟩
            rw [hkk, howni] at hown
            exact absurd (Option.some.inj hown).symm hji
      · rw [if_neg hkk, ih.owner_char k j]
        by_cases hji : j = i
        · subst hji
          constructor
          · rintro ⟨hkj, -⟩
            exact absurd hkj hkk
          · rintro ⟨hkj, -⟩
            exact absurd hkj hkk
        · rw [if_neg hji]

theorem countIn_take_mono (a : Fin 2) (evs : List (Fin 2 × Instr)) {m n : Nat} (h : m ≤ n) :
    countIn a (evs.take m) ≤ countIn a (evs.take n) :=
  countP_take_mono _ evs h

theorem countIn_pos (a : Fin 2) (evs : List (Fin 2 × Instr)) {r m : Nat} {e : Fin 2 × Instr}
    (h : evs[r]? = some e) (he : e.1 = a) (hrm : r < m) :
    countIn a (evs.take r) + 1 ≤ countIn a (evs.take m) :=
  countP_pos_of_getElem _ evs h (by simp [he]) hrm

/-- Position of the `n`-th event of run `a` occurring before position `m`,
together with its instruction as dictated by the run's program. -/
theorem nth_run_event (key : Fin 2 → String) (ab : Fin 2 → Bool)
    (evs : List (Fin 2 × Instr))
    (hcons : ∀ r e, evs[r]? = some e →
      (resumeProgram (key e.1) (ab e.1))[countIn e.1 (evs.take r)]? = some e.2)
    (a : Fin 2) (m n : Nat) (h : n < countIn a (evs.take m)) :
    ∃ r instr, r < m ∧ evs[r]? = some (a, instr) ∧ countIn a (evs.take r) = n ∧
      (resumeProgram (key a) (ab a))[n]? = some instr := by
  obtain ⟨r, hrlen, e, he, hpe, hc⟩ := countP_nth (fun e : Fin 2 × Instr => e.1 == a) (evs.take m) n h
  have hrm : r < m := lt_of_lt_of_le hrlen (by simp [List.length_take])
  have he' : evs[r]? = some e := by
    rw [← List.getElem?_take_of_lt hrm]
    exact he
  have ha : e.1 = a := by simpa using hpe
  have hc' : countIn a (evs.take r) = n := by
    rw [List.take_take, min_eq_left (Nat.le_of_lt hrm)] at hc
    exact hc
  have hprog := hcons r e he'
  rw [ha, hc'] at hprog
  refine ⟨r, e.2, hrm, ?_, hc', hprog⟩
  rw [← ha, Prod.mk.eta]
  exact he'

/-- Both runs resume the session keyed `codex:A`; run 0 aborts (its `_run`
raises, e.g. the session-identity-mismatch `RuntimeError`), run 1 is
normal. -/
def c4AbKey : Fin 2 → String := fun _ => "codex:A"

def c4Ab : Fin 2 → Bool := fun i => i == 0

/-- Run 0 acquires, spawns, aborts, and releases on the exception exit of
`async with lock`; run 1 then acquires and spawns. -/
def c4AbEvs : List (Fin 2 × Instr) :=
  [(0, .acquire "codex:A"), (0, .spawn), (0, .raiseExc), (0, .release "codex:A"),
   (1, .acquire "codex:A"), (1, .spawn)]

/-- C4 counterexample: a reachable interleaving of two runs resuming the
same session in which the second run spawns (position 5) although the first
run never produced a terminal event — `async with lock` releases the lock on
the exception exit of the aborting first run, so "does not spawn until the
first run has produced its terminal event" is false of the code. -/
theorem lock_released_without_terminal_counterexample :
    (∃ s, Trace (fun i => resumeProgram (c4AbKey i) (c4Ab i)) c4AbEvs s) ∧
    c4AbEvs[5]? = some (1, Instr.spawn) ∧
    c4AbEvs.countP (fun e => e == ((0 : Fin 2), Instr.terminal)) = 0 := by
  refine ⟨?_, by decide, by decide⟩
  have t1 := Trace.snoc (@Trace.nil (fun i => resumeProgram (c4AbKey i) (c4Ab i)))
    (Step.mk initState 0 (Instr.acquire "codex:A") (by decide) (by decide))
  have t2 := Trace.snoc t1 (Step.mk _ 0 Instr.spawn (by decide) (by decide))
  have t3 := Trace.snoc t2 (Step.mk _ 0 Instr.raiseExc (by decide) (by decide))
  have t4 := Trace.snoc t3 (Step.mk _ 0 (Instr.release "codex:A") (by decide) (by decide))
  have t5 := Trace.snoc t4 (Step.mk _ 1 (Instr.acquire "codex:A") (by decide) (by decide))
  have t6 := Trace.snoc t5 (Step.mk _ 1 Instr.spawn (by decide) (by decide))
  exact ⟨_, t6⟩

/-- C4 (amended): for two concurrent runs resuming the same session (equal
lock key), the later-spawning run's process spawn is always preceded by the
earlier run's lock release, and — whenever the earlier run exits normally
rather than aborting with an exception — also by the earlier run's terminal
event (an aborting run releases the lock on the exception exit of
`async with lock` without producing a terminal event); runs with distinct
session keys never block on an acquire; and a non-resuming run's program
acquires no lock before its spawn (the session identity is only known after
it). -/
theorem session_lock_serializes (key : Fin 2 → String) (ab : Fin 2 → Bool) :
    (∀ (evs : List (Fin 2 × Instr)) (s : MState),
      Trace (fun i => resumeProgram (key i) (ab i)) evs s →
      ∀ (p q : Nat) (i j : Fin 2), i ≠ j → key i = key j →
      evs[p]? = some (i, Instr.spawn) → evs[q]? = some (j, Instr.spawn) → p < q →
      ∃ r, r < q ∧ evs[r]? = some (i, Instr.release (key i)) ∧
        (ab i = false → ∃ t, t < r ∧ evs[t]? = some (i, Instr.terminal))) ∧
    (key 0 ≠ key 1 →
      ∀ (evs : List (Fin 2 × Instr)) (s : MState),
      Trace (fun i => resumeProgram (key i) (ab i)) evs s →
      ∀ (i : Fin 2) (k2 : String),
        (resumeProgram (key i) (ab i))[s.pc i]? = some (Instr.acquire k2) →
        instrEnabled s (Instr.acquire k2) = true) ∧
    (∀ k : String, (freshProgram k)[0]? = some Instr.spawn ∧
      ∀ (n : Nat) (k2 : String), (freshProgram k)[n]? = some (Instr.acquire k2) → 0 < n) := by
  refine ⟨?_, ?_, ?_⟩
  · intro evs s htr p q i j hij hk hp hq hpq
    have inv := trace_inv key ab evs s htr
    have hcq : countIn j (evs.take q) = 1 := by
      have hpr := inv.consistent q _ hq
      rcases resumeProgram_get _ _ _ _ hpr with ⟨h1, h2⟩ | ⟨h1, h2⟩ | ⟨h1, h2⟩ | ⟨h1, h2⟩
      · simp at h1
      · exact h2
      · exfalso
        revert h1
        cases ab (j, Instr.spawn).1 <;> simp
      · simp at h1
    have hcp : countIn i (evs.take p) = 1 := by
      have hpr := inv.consistent p _ hp
      rcases resumeProgram_get _ _ _ _ hpr with ⟨h1, h2⟩ | ⟨h1, h2⟩ | ⟨h1, h2⟩ | ⟨h1, h2⟩
      · simp at h1
      · exact h2
      · exfalso
        revert h1
        cases ab (i, Instr.spawn).1 <;> simp
      · simp at h1
    obtain ⟨q2, aq, hq2q, hq2ev, hq2cnt, hq2prog⟩ :=
      nth_run_event key ab evs inv.consistent j q 0 (by omega)
    have haq : aq = Instr.acquire (key j) := by
      simpa [resumeProgram] using hq2prog.symm
    rw [haq] at hq2ev
    rcases inv.acq_hist q2 i j hij hq2ev hk with h0 | h4
    · exfalso
      have hq2p : q2 < p := by
        by_contra hle
        push_neg at hle
        have := countIn_take_mono i evs hle
        omega
      obtain ⟨p2, ap, hp2p, hp2ev, hp2cnt, hp2prog⟩ :=
        nth_run_event key ab evs inv.consistent i p 0 (by omega)
      have hap : ap = Instr.acquire (key i) := by
        simpa [resumeProgram] using hp2prog.symm
      rw [hap] at hp2ev
      rcases inv.acq_hist p2 j i (Ne.symm hij) hp2ev hk.symm with h02 | h42
      · rcases Nat.lt_trichotomy q2 p2 with hlt | heq | hgt
        · have := countIn_pos j evs hq2ev rfl hlt
          omega
        · subst heq
          rw [hp2ev] at hq2ev
          have hfst := congrArg Prod.fst (Option.some.inj hq2ev)
          simp only [] at hfst
          exact hij hfst
        · have := countIn_pos i evs hp2ev rfl hgt
          omega
      · have hp2q : p2 ≤ q := by omega
        have := countIn_take_mono j evs hp2q
        omega
    · obtain ⟨r, ar, hrq2, hrev, hrcnt, hrprog⟩ :=
        nth_run_event key ab evs inv.consistent i q2 3 (by omega)
      have hrel : ar = Instr.release (key i) := by
        simpa [resumeProgram] using hrprog.symm
      refine ⟨r, by omega, by rw [← hrel]; exact hrev, ?_⟩
      intro habf
      obtain ⟨t, at2, htq2, htev, htcnt, htprog⟩ :=
        nth_run_event key ab evs inv.consistent i q2 2 (by omega)
      have hterm : at2 = Instr.terminal := by
        simp [resumeProgram, habf] at htprog
        exact htprog.symm
      have htr2 : t < r := by
        by_contra hle
        push_neg at hle
        have := countIn_take_mono i evs hle
        omega
      refine ⟨t, htr2, ?_⟩
      rw [← hterm]
      exact htev
  · intro hkk evs s htr i k2 hget
    have inv := trace_inv key ab evs s htr
    rcases resumeProgram_get _ _ _ _ hget with ⟨h1, h2⟩ | ⟨h1, h2⟩ | ⟨h1, h2⟩ | ⟨h1, h2⟩
    · have hk2 : k2 = key i := by
        injection h1
      subst hk2
      show (s.owner (key i)).isNone = true
      cases ho : s.owner (key i) with
      | none => rfl
      | some j =>
        have hc := (inv.owner_char (key i) j).mp ho
        by_cases hji : j = i
        · subst hji
          rw [h2] at hc
          omega
        · exfalso
          have hc1 := hc.1
          fin_cases i <;> fin_cases j <;> simp_all
    · simp at h1
    · exfalso
      revert h1
      cases ab i <;> simp
    · simp at h1
  · intro k
    refine ⟨rfl, ?_⟩
    intro n k2 h
    cases n with
    | zero => simp [freshProgram] at h
    | succ n => omega

/-- Both runs resume the session keyed `codex:A`; neither aborts. -/
def c4Key : Fin 2 → String := fun _ => "codex:A"

def c4NoAb : Fin 2 → Bool := fun _ => false

/-- A complete normal run of run 0 followed by run 1 up to its spawn. -/
def c4Evs : List (Fin 2 × Instr) :=
  [(0, .acquire "codex:A"), (0, .spawn), (0, .terminal), (0, .release "codex:A"),
   (1, .acquire "codex:A"), (1, .spawn)]

theorem c4Evs_trace : ∃ s, Trace (fun i => resumeProgram (c4Key i) (c4NoAb i)) c4Evs s := by
  have t1 := Trace.snoc (@Trace.nil (fun i => resumeProgram (c4Key i) (c4NoAb i)))
    (Step.mk initState 0 (Instr.acquire "codex:A") (by decide) (by decide))
  have t2 := Trace.snoc t1 (Step.mk _ 0 Instr.spawn (by decide) (by decide))
  have t3 := Trace.snoc t2 (Step.mk _ 0 Instr.terminal (by decide) (by decide))
  have t4 := Trace.snoc t3 (Step.mk _ 0 (Instr.release "codex:A") (by decide) (by decide))
  have t5 := Trace.snoc t4 (Step.mk _ 1 (Instr.acquire "codex:A") (by decide) (by decide))
  have t6 := Trace.snoc t5 (Step.mk _ 1 Instr.spawn (by decide) (by decide))
  exact ⟨_, t6⟩

/-- Witness for C4 (amended) on a concrete same-session interleaving with a
normally-exiting first run: run 1 spawns at position 5, run 0's release and
(since it does not abort) terminal occur before it. -/
theorem session_lock_serializes_witness :
    ∃ r, r < 5 ∧ c4Evs[r]? = some (0, Instr.release (c4Key 0)) ∧
      (c4NoAb 0 = false → ∃ t, t < r ∧ c4Evs[t]? = some (0, Instr.terminal)) := by
  obtain ⟨s, htr⟩ := c4Evs_trace
  exact (session_lock_serializes c4Key c4NoAb).1 c4Evs s htr 1 5 0 1 (by decide) rfl
    (by decide) (by decide) (by decide)

end SessionLock
